import Mathlib

/-!
Verification development for the phased code-generation orchestrator of the
codr-agent-cde-sdk repository (src/core/code-generator.ts, which contains both
the CodeGenerator and the TemplateCustomizer, src/core/template-selector.ts,
and src/lib/llm.ts).

Modelling conventions:
* JavaScript numbers are modelled as exact rationals (ℚ).  The one genuinely
  float-specific value the selector can produce, NaN (from `0/0` on empty
  requirement lists), is modelled explicitly by the `JSNum` type.
* External collaborators (the LLM gateway, the build service, the Durable
  Object progress store, the file system backing the template registry) are
  modelled as oracle functions supplied through an environment record, per the
  interfaces they present to the core.  Progress-store posts are
  fire-and-forget per the collaborator contract, so they are modelled as an
  append-only log.
* `JSON.parse` is modelled by a fuelled recursive-descent parser over the JSON
  grammar; the fuel `4 * length + 16` is sufficient for every parseable input.
  `JSON.stringify(v, null, 2)` is modelled by `jsonStringify2`; the textual
  format of non-integer numbers abstracts JavaScript float printing.
-/

set_option maxHeartbeats 1000000

namespace Codr

/-- Left and right curly-brace characters (kept out of literals). -/
def lbrace : Char := Char.ofNat 123

def rbrace : Char := Char.ofNat 125

/-- JSON values as produced by `JSON.parse`. -/
inductive JSVal where
  | null
  | bool (b : Bool)
  | num (q : ℚ)
  | str (s : String)
  | arr (elems : List JSVal)
  | obj (fields : List (String × JSVal))

/-- `s` starts with the character sequence `pat`. -/
def charsStartWith : List Char → List Char → Bool
  | _, [] => true
  | [], _ :: _ => false
  | a :: as, b :: bs => a = b && charsStartWith as bs

/-- `s` contains the character sequence `pat` (JavaScript `String.includes`). -/
def charsContain : List Char → List Char → Bool
  | [], pat => pat.isEmpty
  | s@(_ :: rest), pat => charsStartWith s pat || charsContain rest pat

/-- JavaScript `s.includes(pat)`. -/
def strHasSub (s pat : String) : Bool := charsContain s.data pat.data

/-- ASCII lower-casing of one character (the inputs the claims exercise are
ASCII; JavaScript `toLowerCase` agrees on them). -/
def charToLower (c : Char) : Char :=
  if 'A' ≤ c && c ≤ 'Z' then Char.ofNat (c.toNat + 32) else c

/-- JavaScript `s.toLowerCase()` on ASCII text. -/
def strToLower (s : String) : String := String.mk (s.data.map charToLower)

/-- JSON whitespace characters. -/
def isJsonWs (c : Char) : Bool := c = ' ' || c = '\t' || c = '\n' || c = '\r'

def skipWs (cs : List Char) : List Char := cs.dropWhile isJsonWs

def isDigitCh (c : Char) : Bool := 48 ≤ c.toNat && c.toNat ≤ 57

/-- One hexadecimal digit, by code point ranges. -/
def hexDigitVal (c : Char) : Option Nat :=
  let n := c.toNat
  if 48 ≤ n && n ≤ 57 then some (n - 48)
  else if 97 ≤ n && n ≤ 102 then some (n - 87)
  else if 65 ≤ n && n ≤ 70 then some (n - 55)
  else none

/-- Split a leading run of decimal digits off the input. -/
def splitDigits (cs : List Char) : List Char × List Char := cs.span isDigitCh

def digitsToNat (ds : List Char) : Nat := ds.foldl (fun acc d => 10 * acc + (d.toNat - 48)) 0

def tenPow (n : Nat) : ℚ := ((10 ^ n : ℕ) : ℚ)

/-- Fractional part of a JSON number (after the integer part). -/
def parseFracPart : List Char → Option (ℚ × List Char)
  | '.' :: r =>
    match splitDigits r with
    | ([], _) => none
    | (fds, r2) => some ((digitsToNat fds : ℚ) / tenPow fds.length, r2)
  | cs => some (0, cs)

/-- Exponent part of a JSON number. -/
def parseExpPart : List Char → Option (Int × List Char)
  | c :: r =>
    if c = 'e' || c = 'E' then
      let (sgn, r1) : Int × List Char :=
        match r with
        | '+' :: r2 => (1, r2)
        | '-' :: r2 => (-1, r2)
        | _ => (1, r)
      match splitDigits r1 with
      | ([], _) => none
      | (ds, r2) => some (sgn * (digitsToNat ds : Int), r2)
    else some (0, c :: r)
  | [] => some (0, [])

def applyTenExp (q : ℚ) (e : Int) : ℚ :=
  if 0 ≤ e then q * tenPow e.toNat else q / tenPow (-e).toNat

/-- Parse an unsigned JSON number (strict grammar: no leading zeros, no bare
dot, at least one integer digit). -/
def parseUnsignedNum (cs : List Char) : Option (ℚ × List Char) :=
  match splitDigits cs with
  | ([], _) => none
  | (ids, rest1) =>
    if 1 < ids.length && ids.headD '0' = '0' then none
    else
      match parseFracPart rest1 with
      | none => none
      | some (frac, rest2) =>
        match parseExpPart rest2 with
        | none => none
        | some (e, rest3) =>
          some (applyTenExp ((digitsToNat ids : ℚ) + frac) e, rest3)

/-- Parse a JSON number, with its optional leading minus sign. -/
def parseNum : List Char → Option (ℚ × List Char)
  | '-' :: r => (parseUnsignedNum r).map fun p => (-p.1, p.2)
  | cs => parseUnsignedNum cs

/-- Parse the body of a JSON string literal (after the opening quote). -/
def parseStrBody (fuel : Nat) (cs : List Char) : Option (List Char × List Char) :=
  match fuel with
  | 0 => none
  | fuel + 1 =>
    match cs with
    | [] => none
    | c :: r =>
      if c = '"' then some ([], r)
      else if c = '\\' then
        match r with
        | [] => none
        | e :: r1 =>
          let esc? : Option (Char × List Char) :=
            if e = '"' then some ('"', r1)
            else if e = '\\' then some ('\\', r1)
            else if e = '/' then some ('/', r1)
            else if e = 'b' then some (Char.ofNat 8, r1)
            else if e = 'f' then some (Char.ofNat 12, r1)
            else if e = 'n' then some ('\n', r1)
            else if e = 'r' then some ('\r', r1)
            else if e = 't' then some ('\t', r1)
            else if e = 'u' then
              match r1 with
              | a :: b :: c2 :: d :: r2 =>
                match hexDigitVal a, hexDigitVal b, hexDigitVal c2, hexDigitVal d with
                | some x1, some x2, some x3, some x4 =>
                  some (Char.ofNat (((x1 * 16 + x2) * 16 + x3) * 16 + x4), r2)
                | _, _, _, _ => none
              | _ => none
            else none
          match esc? with
          | some (ch, r2) => (parseStrBody fuel r2).map fun p => (ch :: p.1, p.2)
          | none => none
      else if c.toNat < 32 then none
      else (parseStrBody fuel r).map fun p => (c :: p.1, p.2)

mutual

/-- Fuelled recursive-descent parser for a JSON value. -/
def parseVal (fuel : Nat) (cs : List Char) : Option (JSVal × List Char) :=
  match fuel with
  | 0 => none
  | fuel + 1 =>
    match skipWs cs with
    | [] => none
    | c :: r =>
      if c = 'n' then
        match r with
        | 'u' :: 'l' :: 'l' :: r2 => some (.null, r2)
        | _ => none
      else if c = 't' then
        match r with
        | 'r' :: 'u' :: 'e' :: r2 => some (.bool true, r2)
        | _ => none
      else if c = 'f' then
        match r with
        | 'a' :: 'l' :: 's' :: 'e' :: r2 => some (.bool false, r2)
        | _ => none
      else if c = '"' then
        (parseStrBody fuel r).map fun p => (.str (String.mk p.1), p.2)
      else if c = '[' then
        match skipWs r with
        | ']' :: r2 => some (.arr [], r2)
        | r2 => (parseElems fuel r2).map fun p => (.arr p.1, p.2)
      else if c = lbrace then
        match skipWs r with
        | r2 =>
          if charsStartWith r2 [rbrace] then some (.obj [], r2.tail)
          else (parseMembers fuel r2).map fun p => (.obj p.1, p.2)
      else
        (parseNum (c :: r)).map fun p => (.num p.1, p.2)

/-- Parse the elements of a non-empty JSON array. -/
def parseElems (fuel : Nat) (cs : List Char) : Option (List JSVal × List Char) :=
  match fuel with
  | 0 => none
  | fuel + 1 =>
    match parseVal fuel cs with
    | none => none
    | some (v, r) =>
      match skipWs r with
      | ',' :: r2 => (parseElems fuel r2).map fun p => (v :: p.1, p.2)
      | ']' :: r2 => some ([v], r2)
      | _ => none

/-- Parse the members of a non-empty JSON object. -/
def parseMembers (fuel : Nat) (cs : List Char) : Option (List (String × JSVal) × List Char) :=
  match fuel with
  | 0 => none
  | fuel + 1 =>
    match skipWs cs with
    | '"' :: r =>
      match parseStrBody fuel r with
      | none => none
      | some (k, r1) =>
        match skipWs r1 with
        | ':' :: r2 =>
          match parseVal fuel r2 with
          | none => none
          | some (v, r3) =>
            match skipWs r3 with
            | ',' :: r4 => (parseMembers fuel r4).map fun p => ((String.mk k, v) :: p.1, p.2)
            | r4 =>
              if charsStartWith r4 [rbrace] then some ([(String.mk k, v)], r4.tail)
              else none
        | _ => none
    | _ => none

end

/-- Model of JavaScript `JSON.parse` wrapped in try/catch: `some` on success,
`none` when `JSON.parse` throws. -/
def jsonParse (s : String) : Option JSVal :=
  match parseVal (4 * s.data.length + 16) s.data with
  | some (v, rest) => if (skipWs rest).isEmpty then some v else none
  | none => none

/-- Escape one character for inclusion in a JSON string literal. -/
def escapeJsonChar (c : Char) : String :=
  if c = '"' then "\\\""
  else if c = '\\' then "\\\\"
  else if c = '\n' then "\\n"
  else if c = '\r' then "\\r"
  else if c = '\t' then "\\t"
  else if c.toNat = 8 then "\\b"
  else if c.toNat = 12 then "\\f"
  else if c.toNat < 32 then
    let hex := fun (n : Nat) => String.singleton (if n < 10 then Char.ofNat ('0'.toNat + n) else Char.ofNat ('a'.toNat + n - 10))
    "\\u00" ++ hex (c.toNat / 16) ++ hex (c.toNat % 16)
  else String.singleton c

def escapeJsonString (s : String) : String :=
  "\"" ++ String.join (s.data.map escapeJsonChar) ++ "\""

/-- Textual form of a number.  JavaScript prints IEEE doubles; integral values
agree exactly, non-integral rationals are printed in num/den form (an
abstraction of float printing, exercised by no claim). -/
def ratToJsString (q : ℚ) : String :=
  if q.den = 1 then toString q.num else toString q

def indentSpaces (n : Nat) : String := String.mk (List.replicate (2 * n) ' ')

mutual

/-- Model of `JSON.stringify(v, null, 2)` at indentation depth `ind`. -/
def strfyVal (ind : Nat) : JSVal → String
  | .null => "null"
  | .bool b => if b then "true" else "false"
  | .num q => ratToJsString q
  | .str s => escapeJsonString s
  | .arr l =>
    if l.isEmpty then "[]"
    else "[\n" ++ strfyItems (ind + 1) l ++ "\n" ++ indentSpaces ind ++ "]"
  | .obj fs =>
    if fs.isEmpty then String.singleton lbrace ++ String.singleton rbrace
    else
      String.singleton lbrace ++ "\n" ++ strfyFields (ind + 1) fs ++ "\n" ++
        indentSpaces ind ++ String.singleton rbrace

def strfyItems (ind : Nat) : List JSVal → String
  | [] => ""
  | [v] => indentSpaces ind ++ strfyVal ind v
  | v :: vs => indentSpaces ind ++ strfyVal ind v ++ ",\n" ++ strfyItems ind vs

def strfyFields (ind : Nat) : List (String × JSVal) → String
  | [] => ""
  | [(k, v)] => indentSpaces ind ++ escapeJsonString k ++ ": " ++ strfyVal ind v
  | (k, v) :: fs =>
    indentSpaces ind ++ escapeJsonString k ++ ": " ++ strfyVal ind v ++ ",\n" ++ strfyFields ind fs

end

def jsonStringify2 (v : JSVal) : String := strfyVal 0 v

/-- JavaScript truthiness of a JSON value (`undefined` is handled by callers
via `Option`). -/
def jsTruthy : JSVal → Bool
  | .null => false
  | .bool b => b
  | .num q => !(q = 0)
  | .str s => !(s = "")
  | .arr _ => true
  | .obj _ => true

/-- Property access `v[k]` on a parsed JSON value: `none` models `undefined`.
`JSON.parse` lets a duplicated key overwrite an earlier one, hence the
last-match lookup. -/
def getField : JSVal → String → Option JSVal
  | .obj fs, k => (fs.reverse.find? fun p => p.1 = k).map Prod.snd
  | _, _ => none

/-- JavaScript `a || b` where `a` may be `undefined`. -/
def jsOrVal (o : Option JSVal) (d : JSVal) : JSVal :=
  match o with
  | some v => if jsTruthy v then v else d
  | none => d

/-- JavaScript `a || b` for strings (`""` is falsy). -/
def jsStrOr (s d : String) : String := if s = "" then d else s

mutual

/-- JavaScript string coercion (template-literal interpolation) of a value. -/
def jsToString : JSVal → String
  | .null => "null"
  | .bool b => if b then "true" else "false"
  | .num q => ratToJsString q
  | .str s => s
  | .arr l => jsToStringList l
  | .obj _ => "[object Object]"

def jsToStringList : List JSVal → String
  | [] => ""
  | [v] => jsToString v
  | v :: vs => jsToString v ++ "," ++ jsToStringList vs

end

/-! ## src/lib/llm.ts — model selection policy and gateway interfaces -/

inductive Provider where
  | anthropic | openai | google | openrouter | replicate | googleai
deriving DecidableEq

structure LLMFallback where
  provider : Provider
  model : String
  reason : String
deriving DecidableEq

structure LLMChoice where
  provider : Provider
  model : String
  reason : String
  fallback : Option LLMFallback := none
deriving DecidableEq

/-- `pickLLMForJTBD` from src/lib/llm.ts: a pure function of the task
description; keyword groups are tested in a fixed order, first match wins. -/
def pickLLMForJTBD (jtbd : String) : LLMChoice :=
  let s := strToLower jtbd
  if strHasSub s "ui" || strHasSub s "interface" || strHasSub s "dashboard" then
    { provider := .googleai, model := "gemini-2.0-pro-exp", reason := "front-end code generation" }
  else if strHasSub s "copy" || strHasSub s "email" || strHasSub s "summary" then
    { provider := .anthropic, model := "claude-3.7-sonnet", reason := "long-form & nuance",
      fallback := some ⟨.openai, "gpt-5-mini", "budget alternative"⟩ }
  else if strHasSub s "vision" || strHasSub s "image" || strHasSub s "audio" || strHasSub s "transcribe" then
    { provider := .google, model := "gemini-2.5-pro", reason := "multimodal strength" }
  else if strHasSub s "analysis" || strHasSub s "report" || strHasSub s "data" then
    { provider := .openai, model := "gpt-5", reason := "reasoning & structured outputs" }
  else
    { provider := .anthropic, model := "claude-3.7-sonnet", reason := "balanced generalist",
      fallback := some ⟨.openai, "gpt-5-mini", "budget alternative"⟩ }

/-- A file returned by the structured UI-generation gateway entry point. -/
structure UIGenFile where
  path : String
  content : String
deriving DecidableEq

structure UIGenResult where
  files : List UIGenFile

/-! ## src/core/code-generator.ts — data model -/

structure VisualStyle where
  theme : String
  color : String
  font : String
  vibe : String
  motion : String
  favorite_app : Option String := none
  screenshots : Option (List String) := none

structure CodeGenerationRequest where
  name : String
  jtbds : String
  input_sources : List String
  outputs : List String
  api_keys_required : List String
  visual_style : VisualStyle
  frontend_framework : String
  llm_models : Option (List (String × String)) := none

/-- A generated file.  The TypeScript interface declares `path` and `content`
as strings, but the parser assigns them raw parsed JSON values without runtime
validation, so the embedding keeps them as `JSVal`. -/
structure GeneratedFile where
  path : JSVal
  content : JSVal
  phase : String

/-- `JSON.stringify` serialization of the visual-style record (fields that are
`undefined` are omitted, as `JSON.stringify` does). -/
def visualStyleJSVal (vs : VisualStyle) : JSVal :=
  .obj ([("theme", .str vs.theme), ("color", .str vs.color), ("font", .str vs.font),
         ("vibe", .str vs.vibe), ("motion", .str vs.motion)]
    ++ (match vs.favorite_app with
        | some f => [("favorite_app", JSVal.str f)]
        | none => [])
    ++ (match vs.screenshots with
        | some l => [("screenshots", JSVal.arr (l.map JSVal.str))]
        | none => []))

/-! ## Response parsers (CodeGenerator.parsePlanningResponse / parseCodeResponse) -/

/-- `parsePlanningResponse`: parse the LLM response as JSON; on success wrap it
as "project-structure.json", on failure wrap the raw text as
"planning-notes.txt".  Total: never raises. -/
def parsePlanningResponse (response : String) (phase : String) : List GeneratedFile :=
  match jsonParse response with
  | some data => [⟨.str "project-structure.json", .str (jsonStringify2 data), phase⟩]
  | none => [⟨.str "planning-notes.txt", .str response, phase⟩]

/-- `parseCodeResponse`: parse as a JSON array of files and map each entry with
the JavaScript defaults `f.path || ...` and `f.content || f`; on parse failure
or a non-array result, wrap the whole raw response as one fallback file.
Total: never raises. -/
def parseCodeResponse (response : String) (phase : String) : List GeneratedFile :=
  match jsonParse response with
  | some (.arr files) =>
    files.map fun f =>
      ⟨jsOrVal (getField f "path") (.str ("phase-" ++ phase ++ ".txt")),
       jsOrVal (getField f "content") f, phase⟩
  | _ => [⟨.str ("phase-" ++ phase ++ ".tsx"), .str response, phase⟩]

/-! ## CodeGenerator.buildPhasePrompt -/

def previousFilesListing (previousFiles : List GeneratedFile) : String :=
  String.intercalate "\n"
    (previousFiles.map fun f => "- " ++ jsToString f.path ++ " (" ++ f.phase ++ ")")

def baseContext (request : CodeGenerationRequest) (previousFiles : List GeneratedFile) : String :=
  "\nCreate a " ++ request.frontend_framework ++ " application with these requirements:\n" ++
  "- Name: " ++ request.name ++ "\n" ++
  "- Purpose: " ++ request.jtbds ++ "\n" ++
  "- Inputs: " ++ String.intercalate ", " request.input_sources ++ "\n" ++
  "- Outputs: " ++ String.intercalate ", " request.outputs ++ "\n" ++
  "- Required APIs: " ++ String.intercalate ", " request.api_keys_required ++ "\n" ++
  "- Visual Style: " ++ jsonStringify2 (visualStyleJSVal request.visual_style) ++ "\n\n" ++
  "Previous files generated:\n" ++ previousFilesListing previousFiles ++ "\n    "

def buildPhasePrompt (request : CodeGenerationRequest) (phase : String)
    (previousFiles : List GeneratedFile) : String :=
  let base := baseContext request previousFiles
  if phase = "planning" then
    base ++ "\n\nCreate a detailed project structure and file list for this application. Return as JSON:\n\x7b\n  \"structure\": \x7b\n    \"src/\": [\"components/\", \"utils/\", \"types/\"],\n    \"public/\": [\"index.html\", \"assets/\"],\n    \"package.json\": \"dependencies and scripts\"\n  \x7d,\n  \"files\": [\n    \x7b\"path\": \"src/main.tsx\", \"description\": \"Entry point\"\x7d,\n    \x7b\"path\": \"src/App.tsx\", \"description\": \"Main component\"\x7d\n  ]\n\x7d"
  else if phase = "foundation" then
    base ++ "\n\nGenerate the foundation files for this " ++ request.frontend_framework ++ " app:\n- package.json with all necessary dependencies\n- tsconfig.json\n- vite.config.ts (if using Vite)\n- index.html\n- main.tsx entry point\n- Basic App component structure\n\nReturn as JSON array of files with path and content."
  else if phase = "core" then
    base ++ "\n\nGenerate the core functionality:\n- Main components based on the JTBD\n- Business logic\n- State management\n- API integration points\n\nFocus on the core user workflow described in the requirements."
  else if phase = "styling" then
    base ++ "\n\nGenerate styling based on visual preferences:\n- Theme: " ++ request.visual_style.theme ++ "\n- Color palette: " ++ request.visual_style.color ++ "\n- Font: " ++ request.visual_style.font ++ "\n- Design vibe: " ++ request.visual_style.vibe ++ "\n- Motion: " ++ request.visual_style.motion ++ "\n\nCreate CSS files, Tailwind config, and styled components."
  else if phase = "integration" then
    base ++ "\n\nAdd API integrations and external services:\n" ++
    String.intercalate "\n" (request.api_keys_required.map fun api => "- " ++ api ++ " integration") ++
    "\n\nCreate service files, API clients, and connection logic."
  else if phase = "optimization" then
    base ++ "\n\nAdd optimizations:\n- Error boundaries\n- Loading states\n- Performance improvements\n- Type safety\n- Testing setup"
  else
    base

/-! ## Phase orchestrator (CodeGenerator.generateApp) -/

structure BuildFileEntry where
  path : JSVal
  content : JSVal

structure BuildRequest where
  appId : String
  files : List BuildFileEntry
  framework : String
  dependencies : JSVal

/-- External collaborators of the orchestrator, per their §6 interfaces:
the unified LLM caller and the structured UI-generation entry point may fail
(modelled with `Except`, the orchestrator catches per phase); the build
service returns a structured result value; progress-store posts are
fire-and-forget and are modelled as the returned log. -/
structure OrchestratorEnv where
  llm : String → LLMChoice → Except String String
  uiGen : String → String → Except String UIGenResult
  build : BuildRequest → JSVal

/-- `CodeGenerator.generatePhase`: route the phase to the planning parser, the
UI-generation entry point (for "styling" or any phase containing "ui"), or the
general code parser. -/
def generatePhase (env : OrchestratorEnv) (request : CodeGenerationRequest)
    (phase : String) (previousFiles : List GeneratedFile) : Except String (List GeneratedFile) :=
  let llmChoice := pickLLMForJTBD request.jtbds
  let prompt := buildPhasePrompt request phase previousFiles
  if phase = "planning" then
    (env.llm prompt llmChoice).map fun response => parsePlanningResponse response phase
  else if strHasSub phase "ui" || phase = "styling" then
    (env.uiGen "gemini-2.0-pro-exp" prompt).map fun uiResult =>
      uiResult.files.map fun f => ⟨.str f.path, .str f.content, phase⟩
  else
    (env.llm prompt llmChoice).map fun response => parseCodeResponse response phase

structure GenPhase where
  name : String
  description : String

/-- The six fixed phases of `generateApp`. -/
def phases : List GenPhase :=
  [⟨"planning", "Analyze requirements and create project structure"⟩,
   ⟨"foundation", "Generate package.json, config files, and basic setup"⟩,
   ⟨"core", "Create main components and business logic"⟩,
   ⟨"styling", "Add CSS, themes, and visual design"⟩,
   ⟨"integration", "Connect APIs and external services"⟩,
   ⟨"optimization", "Performance improvements and error handling"⟩]

structure GenerationResult where
  files : List GeneratedFile
  preview_url : String
  deployment_id : String
  build_result : JSVal

/-- One progress update posted to the Durable Object progress store. -/
structure ProgressUpdate where
  phase : String
  progress : ℚ
  status : String
  result : Option GenerationResult := none

/-- State threaded through the phase loop: accumulated files, the
`currentPhase` success counter, the posted progress log, and the per-phase
outcome record (phase name paired with whether its generation succeeded). -/
structure RunState where
  files : List GeneratedFile
  completed : Nat
  log : List ProgressUpdate
  outcomes : List (String × Bool)

/-- The `for (const phase of phases)` loop of `generateApp`: post a
"generating" update with progress `(currentPhase / phases.length) * 100`, then
attempt the phase; on success append its files and increment the counter, on
failure (the catch branch) log and continue with the next phase. -/
def goPhases (env : OrchestratorEnv) (request : CodeGenerationRequest) :
    List GenPhase → List GeneratedFile → Nat → RunState
  | [], files, c => ⟨files, c, [], []⟩
  | ph :: rest, files, c =>
    let pre : ProgressUpdate := ⟨ph.name, (c : ℚ) / (phases.length : ℚ) * 100, "generating", none⟩
    match generatePhase env request ph.name files with
    | .ok phaseFiles =>
      let s := goPhases env request rest (files ++ phaseFiles) (c + 1)
      ⟨s.files, s.completed, pre :: s.log, (ph.name, true) :: s.outcomes⟩
    | .error _ =>
      let s := goPhases env request rest files c
      ⟨s.files, s.completed, pre :: s.log, (ph.name, false) :: s.outcomes⟩

/-- `CodeGenerator.buildGeneratedApp`: delegate to the build service with the
accumulated files and the requested framework. -/
def buildGeneratedApp (env : OrchestratorEnv) (files : List GeneratedFile)
    (request : CodeGenerationRequest) (agentId : String) : JSVal :=
  env.build ⟨agentId, files.map fun f => ⟨f.path, f.content⟩, request.frontend_framework, .obj []⟩

/-- `CodeGenerator.createPreviewAndDeploy`: the returned result record.  The
R2 asset writes are fire-and-forget external effects observed by no claim. -/
def createPreviewAndDeploy (files : List GeneratedFile) (buildResult : JSVal)
    (agentId : String) : GenerationResult :=
  ⟨files, "https://" ++ agentId ++ ".yourdomain.com", agentId, buildResult⟩

/-- `CodeGenerator.generateApp`: run the six phases, build, assemble the
result, and unconditionally post the final
`{phase: "complete", progress: 100, status: "completed", result}` update.
Returns the result together with the full posted progress log.  The function
is total: it terminates and raises nothing for every input and oracle. -/
def generateApp (env : OrchestratorEnv) (request : CodeGenerationRequest)
    (agentId : String) : GenerationResult × List ProgressUpdate :=
  let st := goPhases env request phases [] 0
  let buildResult := buildGeneratedApp env st.files request agentId
  let result := createPreviewAndDeploy st.files buildResult agentId
  (result, st.log ++ [⟨"complete", 100, "completed", some result⟩])

/-- The per-phase outcome record of a run. -/
def runOutcomes (env : OrchestratorEnv) (request : CodeGenerationRequest) : List (String × Bool) :=
  (goPhases env request phases [] 0).outcomes

/-! ## JavaScript numbers for the template matcher

The matcher's score arithmetic divides by the lengths of the requirement
lists; on an empty list this is `0/0`, which is `NaN` in JavaScript and
propagates through the remaining arithmetic.  `JSNum` models a JavaScript
number as an exact rational extended with `NaN` and the two infinities. -/

inductive JSNum where
  | nan
  | posInf
  | negInf
  | num (q : ℚ)
deriving DecidableEq

def jneg : JSNum → JSNum
  | .nan => .nan
  | .posInf => .negInf
  | .negInf => .posInf
  | .num q => .num (-q)

def jadd : JSNum → JSNum → JSNum
  | .num a, .num b => .num (a + b)
  | .nan, _ => .nan
  | _, .nan => .nan
  | .posInf, .negInf => .nan
  | .negInf, .posInf => .nan
  | .posInf, _ => .posInf
  | _, .posInf => .posInf
  | .negInf, _ => .negInf
  | _, .negInf => .negInf

def jsub (a b : JSNum) : JSNum := jadd a (jneg b)

def jmul : JSNum → JSNum → JSNum
  | .num a, .num b => .num (a * b)
  | .nan, _ => .nan
  | _, .nan => .nan
  | .posInf, .posInf => .posInf
  | .posInf, .negInf => .negInf
  | .negInf, .posInf => .negInf
  | .negInf, .negInf => .posInf
  | .posInf, .num b => if b = 0 then .nan else if 0 < b then .posInf else .negInf
  | .num a, .posInf => if a = 0 then .nan else if 0 < a then .posInf else .negInf
  | .negInf, .num b => if b = 0 then .nan else if 0 < b then .negInf else .posInf
  | .num a, .negInf => if a = 0 then .nan else if 0 < a then .negInf else .posInf

def jdiv : JSNum → JSNum → JSNum
  | .num a, .num b =>
    if b = 0 then (if a = 0 then .nan else if 0 < a then .posInf else .negInf)
    else .num (a / b)
  | .nan, _ => .nan
  | _, .nan => .nan
  | .posInf, .num b => if 0 ≤ b then .posInf else .negInf
  | .negInf, .num b => if 0 ≤ b then .negInf else .posInf
  | .num _, .posInf => .num 0
  | .num _, .negInf => .num 0
  | .posInf, .posInf => .nan
  | .posInf, .negInf => .nan
  | .negInf, .posInf => .nan
  | .negInf, .negInf => .nan

/-- `Math.min` on two JavaScript numbers. -/
def jmin : JSNum → JSNum → JSNum
  | .nan, _ => .nan
  | _, .nan => .nan
  | .negInf, _ => .negInf
  | _, .negInf => .negInf
  | .posInf, b => b
  | a, .posInf => a
  | .num a, .num b => .num (min a b)

/-- `v < 0` on a comparator result; ECMAScript SortCompare maps a `NaN`
comparator result to `+0`, so `NaN` compares as not-less-than-zero. -/
def jltZero : JSNum → Bool
  | .num q => decide (q < 0)
  | .negInf => true
  | _ => false

/-- JavaScript `a >= b` (false whenever either side is `NaN`). -/
def jge : JSNum → JSNum → Bool
  | .num x, .num y => decide (y ≤ x)
  | .nan, _ => false
  | _, .nan => false
  | .posInf, _ => true
  | _, .negInf => true
  | .negInf, _ => false
  | _, .posInf => false

/-! ## src/core/template-customizer.ts + template-selector.ts — data model -/

structure ApiIntegration where
  type : String := ""
  capabilities : Option (List String) := none
  providers : Option (List String) := none
  purpose : Option String := none

structure CustomizationPrompts where
  ui_generation : String := ""
  functionality : String := ""

structure DeploymentMeta where
  worker_type : String := ""
  routing : String := ""
  database : String := ""
  assets : String := ""

structure ConnectionOutput where
  type : String := ""
  trigger : String := ""
  data : String := ""
  formats : Option (List String) := none

structure ConnectionInput where
  type : String := ""
  sources : List String := []

structure Connections where
  outputs : List ConnectionOutput := []
  inputs : List ConnectionInput := []

/-- A template definition as loaded from the YAML registry. -/
structure TemplateDefinition where
  name : String := ""
  description : String := ""
  category : String := ""
  framework : String := ""
  complexity : String := ""
  capabilities : List (String × Bool) := []
  base_reference : String := ""
  package_patches : Option JSVal := none
  «variables» : List (String × String) := []
  customization_prompts : CustomizationPrompts := {}
  api_integrations : List ApiIntegration := []
  deployment : DeploymentMeta := {}
  connections : Connections := {}

/-- `UserRequirements` from src/core/template-customizer.ts. -/
structure UserRequirements where
  name : String := ""
  jtbds : String := ""
  input_sources : List String := []
  outputs : List String := []
  api_keys_required : List String := []
  next_step : String := ""
  visual_style : VisualStyle
  llm_models : List (String × String) := []

/-- Object-property lookup `template.capabilities[cap]` (`undefined` is falsy). -/
def capLookup (t : TemplateDefinition) (cap : String) : Bool :=
  ((t.capabilities.find? fun p => p.1 = cap).map Prod.snd).getD false

/-- The fixed input→capability table of `templateSupportsInput`. -/
def inputCapMap (input : String) : List String :=
  if input = "gdrive" then ["file_upload"]
  else if input = "dropbox" then ["file_upload"]
  else if input = "notion" then ["api_import"]
  else if input = "web" then ["url_import"]
  else if input = "upload" then ["file_upload"]
  else if input = "email" then ["api_import"]
  else if input = "other" then ["api_import"]
  else []

def templateSupportsInput (t : TemplateDefinition) (input : String) : Bool :=
  (inputCapMap (strToLower input)).any fun cap => capLookup t cap

/-- The fixed output→capability table of `templateSupportsOutput`. -/
def outputCapMap (output : String) : List String :=
  if output = "summary" then ["data_storage", "reporting"]
  else if output = "doc" then ["export"]
  else if output = "json" then ["export"]
  else if output = "post" then ["api_import"]
  else if output = "slides" then ["export"]
  else if output = "audio" then ["export"]
  else if output = "video" then ["export"]
  else if output = "image" then ["export"]
  else if output = "trigger" then ["webhook"]
  else []

def templateSupportsOutput (t : TemplateDefinition) (output : String) : Bool :=
  (outputCapMap (strToLower output)).any fun cap => capLookup t cap

def templateSupportsAPI (t : TemplateDefinition) (api : String) : Bool :=
  t.api_integrations.any fun integration =>
    match integration.providers with
    | some provs => provs.contains (strToLower api)
    | none => false

/-- `assessJTBDComplexity`: count the four complexity factors. -/
def assessJTBDComplexity (requirements : UserRequirements) : String :=
  let factors : List Bool :=
    [decide (2 < requirements.input_sources.length),
     decide (2 < requirements.outputs.length),
     decide (1 < requirements.api_keys_required.length),
     decide (100 < requirements.jtbds.length)]
  let complexityScore := (factors.filter id).length
  if complexityScore ≤ 1 then "simple"
  else if complexityScore ≤ 3 then "medium"
  else "complex"

/-- The JTBD-keyword component of `calculateTemplateMatch` (up to 30 points,
first matching rule wins). -/
def kwScore (template : TemplateDefinition) (requirements : UserRequirements) : ℚ :=
  if strHasSub (strToLower requirements.jtbds) "journal" && strHasSub template.name "journal" then 30
  else if strHasSub (strToLower requirements.jtbds) "idea" && strHasSub template.name "idea" then 30
  else if strHasSub (strToLower requirements.jtbds) "dashboard" && strHasSub template.name "dashboard" then 30
  else if strHasSub (strToLower requirements.jtbds) "track" && capLookup template "workflow_management" then 20
  else if strHasSub (strToLower requirements.jtbds) "manage" && capLookup template "workflow_management" then 20
  else 0

/-- Input-source coverage: `(inputMatches / input_sources.length) * 20`. -/
def inputScore (template : TemplateDefinition) (requirements : UserRequirements) : JSNum :=
  let inputMatches := (requirements.input_sources.filter fun input =>
    templateSupportsInput template input).length
  jmul (jdiv (.num (inputMatches : ℚ)) (.num (requirements.input_sources.length : ℚ))) (.num 20)

/-- Output coverage: `(outputMatches / outputs.length) * 20`. -/
def outputScore (template : TemplateDefinition) (requirements : UserRequirements) : JSNum :=
  let outputMatches := (requirements.outputs.filter fun output =>
    templateSupportsOutput template output).length
  jmul (jdiv (.num (outputMatches : ℚ)) (.num (requirements.outputs.length : ℚ))) (.num 20)

/-- Required-API coverage: `(apiMatches / api_keys_required.length) * 15`. -/
def apiScore (template : TemplateDefinition) (requirements : UserRequirements) : JSNum :=
  let apiMatches := (requirements.api_keys_required.filter fun api =>
    templateSupportsAPI template api).length
  jmul (jdiv (.num (apiMatches : ℚ)) (.num (requirements.api_keys_required.length : ℚ))) (.num 15)

/-- Favorite-app heuristic: +10 for the two hard-coded pairings. -/
def favScore (template : TemplateDefinition) (requirements : UserRequirements) : ℚ :=
  match requirements.visual_style.favorite_app with
  | some fav =>
    if fav = "" then 0
    else if strHasSub (strToLower fav) "notion" && template.framework = "react" then 10
    else if strHasSub (strToLower fav) "figma" && capLookup template "data_visualization" then 10
    else 0
  | none => 0

/-- Complexity match: +5 when the derived tier equals the declared one. -/
def complexityScore (template : TemplateDefinition) (requirements : UserRequirements) : ℚ :=
  if assessJTBDComplexity requirements = template.complexity then 5 else 0

/-- `TemplateSelector.calculateTemplateMatch`: the weighted score, accumulated
left to right exactly as the source's `score +=` statements do (`maxScore`
totals 100 unconditionally), normalized by `maxScore` and clamped with
`Math.min(·, 1.0)`.  Empty requirement lists make the corresponding coverage
terms `0/0 = NaN`, which propagates. -/
def calculateTemplateMatch (template : TemplateDefinition) (requirements : UserRequirements) : JSNum :=
  let score :=
    jadd (jadd (jadd (jadd (jadd (.num (kwScore template requirements))
      (inputScore template requirements)) (outputScore template requirements))
      (apiScore template requirements)) (.num (favScore template requirements)))
      (.num (complexityScore template requirements))
  let maxScore : ℚ := 30 + 20 + 20 + 15 + 10 + 5
  jmin (jdiv score (.num maxScore)) (.num 1)

/-- `TemplateSelector.generateMatchReasoning`. -/
def generateMatchReasoning (template : TemplateDefinition) (requirements : UserRequirements) : String :=
  let firstWord := (template.name.splitOn "-").headD ""
  let inputMatches := requirements.input_sources.filter fun input =>
    templateSupportsInput template input
  let outputMatches := requirements.outputs.filter fun output =>
    templateSupportsOutput template output
  let reasons : List String :=
    (if strHasSub (strToLower requirements.jtbds) firstWord then
      ["JTBD mentions \"" ++ firstWord ++ "\" functionality"] else []) ++
    (if 0 < inputMatches.length then
      ["Supports " ++ toString inputMatches.length ++ " of your input sources"] else []) ++
    (if 0 < outputMatches.length then
      ["Supports " ++ toString outputMatches.length ++ " of your output types"] else [])
  if reasons.isEmpty then "General purpose template" else String.intercalate ", " reasons

structure TemplateMatch where
  templateName : String
  confidence : JSNum
  reasoning : String
  capabilities : List String

/-- The unsorted match list built by `selectTemplateForJTBD`. -/
def templateMatches (templates : List TemplateDefinition) (userRequirements : UserRequirements) :
    List TemplateMatch :=
  templates.map fun template =>
    ⟨template.name, calculateTemplateMatch template userRequirements,
     generateMatchReasoning template userRequirements,
     (template.capabilities.filter fun p => p.2).map Prod.fst⟩

/-- The sort comparator `(a, b) => b.confidence - a.confidence`. -/
def matchCompare (a b : TemplateMatch) : JSNum := jsub b.confidence a.confidence

/-- Stable insertion consistent with ECMAScript `Array.prototype.sort` under
the comparator above: a later element `m` goes after `x` exactly when
SortCompare(x, m) < 0 (a `NaN` comparator value counts as zero). -/
def insertMatch (m : TemplateMatch) : List TemplateMatch → List TemplateMatch
  | [] => [m]
  | x :: xs => if jltZero (matchCompare x m) then x :: insertMatch m xs else m :: x :: xs

/-- The stable descending sort `matches.sort((a, b) => b.confidence - a.confidence)`. -/
def sortMatches : List TemplateMatch → List TemplateMatch
  | [] => []
  | m :: ms => insertMatch m (sortMatches ms)

structure TemplateSelectionResult where
  selectedTemplate : Option String := none
  fallbackGeneration : Option Bool := none
  reasoning : String
  alternatives : List TemplateMatch

/-- `(bestMatch.confidence * 100).toFixed(1)` for the fallback reasoning. -/
def toFixed1 (n : JSNum) : String :=
  match n with
  | .num q =>
    let r : Int := ⌊(q * 10 + 1 / 2 : ℚ)⌋
    toString (r / 10) ++ "." ++ toString (r % 10).natAbs
  | .nan => "NaN"
  | .posInf => "Infinity"
  | .negInf => "-Infinity"

/-- `TemplateSelector.selectTemplateForJTBD`, parameterized by the registry
contents that `getAvailableTemplates` returned.  On an empty registry the
source reads `matches[0].confidence` off `undefined`, which throws a
`TypeError`; this surfaces as `.error`. -/
def selectTemplateForJTBD (availableTemplates : List TemplateDefinition)
    (userRequirements : UserRequirements) : Except String TemplateSelectionResult :=
  let matchList := templateMatches availableTemplates userRequirements
  match sortMatches matchList with
  | [] => .error "TypeError: Cannot read properties of undefined (reading \x27confidence\x27)"
  | bestMatch :: rest =>
    if jge bestMatch.confidence (.num (7 / 10)) then
      .ok { selectedTemplate := some bestMatch.templateName,
            reasoning := bestMatch.reasoning,
            alternatives := rest.take 3 }
    else
      .ok { fallbackGeneration := some true,
            reasoning := "No template matches well enough (best confidence: " ++
              toFixed1 (jmul bestMatch.confidence (.num 100)) ++
              "%). Will generate custom app using AI.",
            alternatives := (bestMatch :: rest).take 3 }

/-! ## src/core/template-customizer.ts — TemplateCustomizer -/

/-- Property access `userRequirements.visual_style[prop]` with the source's
`Array.isArray(v) ? v.join(', ') : (v || '')` coercion. -/
def vsProp (vs : VisualStyle) (prop : String) : String :=
  if prop = "theme" then vs.theme
  else if prop = "color" then vs.color
  else if prop = "font" then vs.font
  else if prop = "vibe" then vs.vibe
  else if prop = "motion" then vs.motion
  else if prop = "favorite_app" then vs.favorite_app.getD ""
  else if prop = "screenshots" then
    match vs.screenshots with
    | some l => String.intercalate ", " l
    | none => ""
  else ""

/-- Word characters matched by the regex class `\w`. -/
def isWordChar (c : Char) : Bool := c.isAlpha || isDigitCh c || c = '_'

def takeWordChars (cs : List Char) : List Char × List Char := cs.span isWordChar

/-- The literal head of the pattern `\{\{visual_style\.(\w+)\}\}`. -/
def vsPatChars : List Char := lbrace :: lbrace :: "visual_style.".data

/-- Left-to-right global replacement for `\{\{visual_style\.(\w+)\}\}`. -/
def replaceVisualStyleGo (vs : VisualStyle) (fuel : Nat) (cs : List Char) : List Char :=
  match fuel with
  | 0 => cs
  | fuel + 1 =>
    match cs with
    | [] => []
    | c :: rest =>
      if charsStartWith cs vsPatChars then
        let after := cs.drop vsPatChars.length
        let (ws, after2) := takeWordChars after
        if ws.isEmpty then c :: replaceVisualStyleGo vs fuel rest
        else if charsStartWith after2 [rbrace, rbrace] then
          (vsProp vs (String.mk ws)).data ++ replaceVisualStyleGo vs fuel (after2.drop 2)
        else c :: replaceVisualStyleGo vs fuel rest
      else c :: replaceVisualStyleGo vs fuel rest

def replaceVisualStyleVars (vs : VisualStyle) (s : String) : String :=
  String.mk (replaceVisualStyleGo vs s.data.length s.data)

/-- `TemplateCustomizer.applyVariableSubstitution`: substitute the JTBD token
and the dotted visual-style tokens into every declared template variable. -/
def applyVariableSubstitution (templateDef : TemplateDefinition)
    (userRequirements : UserRequirements) : List (String × String) :=
  templateDef.«variables».map fun kv =>
    let v1 := kv.2.replace "\x7b\x7bjtbd_description\x7d\x7d" userRequirements.jtbds
    (kv.1, replaceVisualStyleVars userRequirements.visual_style v1)

/-- Whitespace matched by the regex class `\s` (the common cases). -/
def jsWsChar (c : Char) : Bool :=
  c = ' ' || c = '\t' || c = '\n' || c = '\r' || c.toNat = 11 || c.toNat = 12

/-- Left-to-right global replacement for `\{\{\s*key\s*\}\}` (keys in the
template definitions are plain identifiers, so the dynamically built regex is
a literal match). -/
def replaceBracedKeyGo (key value : List Char) (fuel : Nat) (cs : List Char) : List Char :=
  match fuel with
  | 0 => cs
  | fuel + 1 =>
    match cs with
    | [] => []
    | c :: rest =>
      if charsStartWith cs [lbrace, lbrace] then
        let after := (cs.drop 2).dropWhile jsWsChar
        if charsStartWith after key then
          let after2 := (after.drop key.length).dropWhile jsWsChar
          if charsStartWith after2 [rbrace, rbrace] then
            value ++ replaceBracedKeyGo key value fuel (after2.drop 2)
          else c :: replaceBracedKeyGo key value fuel rest
        else c :: replaceBracedKeyGo key value fuel rest
      else c :: replaceBracedKeyGo key value fuel rest

def replaceBracedKey (key value s : String) : String :=
  String.mk (replaceBracedKeyGo key.data value.data s.data.length s.data)

/-- `TemplateCustomizer.interpolatePrompt`. -/
def interpolatePrompt (prompt : String) (vars : List (String × String))
    (userRequirements : UserRequirements) : String :=
  let interpolated := vars.foldl (fun acc kv => replaceBracedKey kv.1 kv.2 acc) prompt
  let i1 := interpolated.replace "\x7b\x7bjtbd_description\x7d\x7d" userRequirements.jtbds
  let i2 := i1.replace "\x7b\x7binput_sources\x7d\x7d"
    (String.intercalate ", " userRequirements.input_sources)
  let i3 := i2.replace "\x7b\x7boutputs\x7d\x7d" (String.intercalate ", " userRequirements.outputs)
  i3.replace "\x7b\x7bapi_keys_required\x7d\x7d"
    (String.intercalate ", " userRequirements.api_keys_required)

def varsLookup (vars : List (String × String)) (k : String) : String :=
  ((vars.find? fun p => p.1 = k).map Prod.snd).getD ""

/-- `TemplateCustomizer.selectLLMForCustomization`: the user-selected model,
provider inferred by substring match, reason "user_selected_model". -/
def selectLLMForCustomization (userRequirements : UserRequirements) : LLMChoice :=
  let primaryModel := jsStrOr (varsLookup userRequirements.llm_models "primary") "gemini-2.0-pro-exp"
  let provider : Provider :=
    if strHasSub primaryModel "gemini" then .googleai
    else if strHasSub primaryModel "claude" then .anthropic
    else if strHasSub primaryModel "gpt" then .openai
    else .googleai
  { provider := provider, model := primaryModel, reason := "user_selected_model" }

/-- JavaScript object-spread update: an existing key keeps its position and is
overwritten, a new key is appended. -/
def objSet (fields : List (String × JSVal)) (k : String) (v : JSVal) : List (String × JSVal) :=
  if fields.any fun p => p.1 = k then
    fields.map fun p => if p.1 = k then (k, v) else p
  else fields ++ [(k, v)]

def objFieldsOf (fields : List (String × JSVal)) (k : String) : List (String × JSVal) :=
  match getField (.obj fields) k with
  | some (.obj l) => l
  | _ => []

/-- `TemplateCustomizer.applyPackagePatches`: start from the template's patch
object, additively insert the pinned OpenAI / Anthropic SDK dependencies when
the corresponding API tag is present (an allow-list; other tags add nothing). -/
def applyPackagePatches (templateDef : TemplateDefinition)
    (userRequirements : UserRequirements) : List (String × JSVal) :=
  let patches : List (String × JSVal) :=
    match templateDef.package_patches with
    | some (.obj fs) => fs
    | _ => []
  let patches :=
    if userRequirements.api_keys_required.contains "openai" then
      objSet patches "dependencies"
        (.obj (objSet (objFieldsOf patches "dependencies") "openai" (.str "^4.0.0")))
    else patches
  if userRequirements.api_keys_required.contains "anthropic" then
    objSet patches "dependencies"
      (.obj (objSet (objFieldsOf patches "dependencies") "@anthropic-ai/sdk" (.str "^0.17.0")))
  else patches

/-- `TemplateCustomizer.generatePackageJson`. -/
def generatePackageJson (templateDef : TemplateDefinition)
    (packagePatches : List (String × JSVal)) : String :=
  let deps := (objFieldsOf packagePatches "dependencies").foldl
    (fun acc kv => objSet acc kv.1 kv.2)
    [("react", JSVal.str "^18.2.0"), ("react-dom", JSVal.str "^18.2.0")]
  let devDeps := (objFieldsOf packagePatches "devDependencies").foldl
    (fun acc kv => objSet acc kv.1 kv.2)
    [("@types/react", JSVal.str "^18.2.0"), ("@types/react-dom", JSVal.str "^18.2.0"),
     ("@vitejs/plugin-react", JSVal.str "^4.0.0"), ("typescript", JSVal.str "^5.0.0"),
     ("vite", JSVal.str "^4.0.0")]
  jsonStringify2 (.obj
    [("name", .str ("custom-" ++ templateDef.name)),
     ("version", .str "1.0.0"),
     ("type", .str "module"),
     ("scripts", .obj [("dev", .str "vite"), ("build", .str "vite build"),
                       ("preview", .str "vite preview")]),
     ("dependencies", .obj deps),
     ("devDependencies", .obj devDeps)])

/-- `TemplateCustomizer.generateMainTsx`. -/
def generateMainTsx : String :=
  "import React from \x27react\x27;\nimport ReactDOM from \x27react-dom/client\x27;\nimport App from \x27./App\x27;\n\nReactDOM.createRoot(document.getElementById(\x27root\x27)!).render(\n  <React.StrictMode>\n    <App />\n  </React.StrictMode>\n);"

/-- `TemplateCustomizer.generateIndexCss`. -/
def generateIndexCss (theme primaryColor : String) : String :=
  "* \x7b\n  box-sizing: border-box;\n\x7d\n\nbody \x7b\n  margin: 0;\n  padding: 0;\n  background: " ++
  (if theme = "dark" then "#1a1a1a" else "#f8f9fa") ++ ";\n  color: " ++
  (if theme = "dark" then "#f4f4f4" else "#212529") ++
  ";\n  font-family: -apple-system, BlinkMacSystemFont, \x27Segoe UI\x27, Roboto, sans-serif;\n  line-height: 1.6;\n\x7d\n\n#root \x7b\n  min-height: 100vh;\n\x7d\n\nbutton \x7b\n  background: " ++
  primaryColor ++
  ";\n  color: white;\n  border: none;\n  padding: 8px 16px;\n  border-radius: 6px;\n  cursor: pointer;\n  font-size: 14px;\n\x7d\n\nbutton:hover \x7b\n  opacity: 0.9;\n\x7d\n\ninput, textarea \x7b\n  padding: 8px 12px;\n  border: 2px solid #ddd;\n  border-radius: 6px;\n  font-size: 14px;\n  font-family: inherit;\n\x7d\n\ninput:focus, textarea:focus \x7b\n  outline: none;\n  border-color: " ++
  primaryColor ++ ";\n\x7d"

/-- `TemplateCustomizer.generateViteConfig`. -/
def generateViteConfig : String :=
  "import \x7b defineConfig \x7d from \x27vite\x27;\nimport react from \x27@vitejs/plugin-react\x27;\n\nexport default defineConfig(\x7b\n  plugins: [react()],\n\x7d);"

/-- `TemplateCustomizer.generateTsConfig`. -/
def generateTsConfig : String :=
  "\x7b\n  \"compilerOptions\": \x7b\n    \"target\": \"ES2020\",\n    \"useDefineForClassFields\": true,\n    \"lib\": [\"ES2020\", \"DOM\", \"DOM.Iterable\"],\n    \"module\": \"ESNext\",\n    \"skipLibCheck\": true,\n    \"moduleResolution\": \"bundler\",\n    \"allowImportingTsExtensions\": true,\n    \"resolveJsonModule\": true,\n    \"isolatedModules\": true,\n    \"noEmit\": true,\n    \"jsx\": \"react-jsx\",\n    \"strict\": true,\n    \"noUnusedLocals\": true,\n    \"noUnusedParameters\": true,\n    \"noFallthroughCasesInSwitch\": true\n  \x7d,\n  \"include\": [\"src\"],\n  \"references\": [\x7b \"path\": \"./tsconfig.node.json\" \x7d]\n\x7d"

/-- `TemplateCustomizer.generateIndexHtml`. -/
def generateIndexHtml (title : String) : String :=
  "<!doctype html>\n<html lang=\"en\">\n  <head>\n    <meta charset=\"UTF-8\" />\n    <meta name=\"viewport\" content=\"width=device-width, initial-scale=1.0\" />\n    <title>" ++
  title ++
  "</title>\n  </head>\n  <body>\n    <div id=\"root\"></div>\n    <script type=\"module\" src=\"/src/main.tsx\"></script>\n  </body>\n</html>"

structure FinalAppMetadata where
  template : String
  customized : Bool
  user_requirements : UserRequirements
  generated_at : String

/-- The assembled customization output of `generateFinalAppStructure`. -/
structure FinalApp where
  name : String
  framework : String
  files : List (String × String)
  deployment : DeploymentMeta
  connections : Connections
  metadata : FinalAppMetadata

/-- `TemplateCustomizer.generateFinalAppStructure` (the functionality
customization is computed by `customizeTemplate` but, as in the source, does
not appear in the emitted file map). -/
def generateFinalAppStructure (templateDef : TemplateDefinition)
    (uiCustomization : String) (packagePatches : List (String × JSVal))
    (userRequirements : UserRequirements) (customizedVars : List (String × String))
    (now : String) : FinalApp :=
  { name := templateDef.name
    framework := templateDef.framework
    files :=
      [("package.json", generatePackageJson templateDef packagePatches),
       ("src/App.tsx", uiCustomization),
       ("src/main.tsx", generateMainTsx),
       ("src/index.css", generateIndexCss userRequirements.visual_style.theme
          (jsStrOr (varsLookup customizedVars "primary_color") "#3498db")),
       ("vite.config.ts", generateViteConfig),
       ("tsconfig.json", generateTsConfig),
       ("index.html", generateIndexHtml
          (jsStrOr (varsLookup customizedVars "app_title") templateDef.name))]
    deployment := templateDef.deployment
    connections := templateDef.connections
    metadata := ⟨templateDef.name, true, userRequirements, now⟩ }

/-- External collaborators of the customizer: the YAML registry (file system
reads behind `loadTemplateDefinition`), the two LLM entry points, and the
clock. -/
structure CustomizeEnv where
  registry : String → Except String TemplateDefinition
  uiGen : String → String → Except String UIGenResult
  llm : String → LLMChoice → Except String String
  now : String

/-- `TemplateCustomizer.loadTemplateDefinition`: rethrow any registry failure
as a hard error naming the template. -/
def loadTemplateDefinition (env : CustomizeEnv) (templateName : String) :
    Except String TemplateDefinition :=
  match env.registry templateName with
  | .ok d => .ok d
  | .error e =>
    .error ("Failed to load template definition for " ++ templateName ++ ": " ++ e)

/-- `TemplateCustomizer.generateUICustomization`: render the UI prompt, call
the structured UI entry point, take the first file's content or the visible
placeholder comment. -/
def generateUICustomization (env : CustomizeEnv) (templateDef : TemplateDefinition)
    (userRequirements : UserRequirements) (vars : List (String × String)) :
    Except String String :=
  let prompt := interpolatePrompt templateDef.customization_prompts.ui_generation vars userRequirements
  (env.uiGen "gemini-2.0-pro-exp" prompt).map fun uiResult =>
    jsStrOr (((uiResult.files.head?).map (·.content)).getD "") "/* UI customization failed */"

/-- `TemplateCustomizer.generateFunctionalityCustomization`. -/
def generateFunctionalityCustomization (env : CustomizeEnv) (templateDef : TemplateDefinition)
    (userRequirements : UserRequirements) (vars : List (String × String)) :
    Except String String :=
  let prompt := interpolatePrompt templateDef.customization_prompts.functionality vars userRequirements
  env.llm prompt (selectLLMForCustomization userRequirements)

/-- `TemplateCustomizer.customizeTemplate`: load the definition first (no
catch — a load failure propagates to the caller before anything else runs),
then substitute, customize UI and functionality, patch packages, and assemble
the final app.  Returns the posted progress log together with the outcome. -/
def customizeTemplate (env : CustomizeEnv) (templateName : String)
    (userRequirements : UserRequirements) : List ProgressUpdate × Except String FinalApp :=
  match loadTemplateDefinition env templateName with
  | .error e => ([], .error e)
  | .ok templateDef =>
    let p1 : ProgressUpdate := ⟨"customizing", 10, "analyzing_requirements", none⟩
    let customizedVars := applyVariableSubstitution templateDef userRequirements
    match generateUICustomization env templateDef userRequirements customizedVars with
    | .error e => ([p1], .error e)
    | .ok uiCustomization =>
      match generateFunctionalityCustomization env templateDef userRequirements customizedVars with
      | .error e => ([p1], .error e)
      | .ok _functionalityCustomization =>
        let packagePatches := applyPackagePatches templateDef userRequirements
        let finalApp := generateFinalAppStructure templateDef uiCustomization packagePatches
          userRequirements customizedVars env.now
        let p2 : ProgressUpdate := ⟨"customizing", 90, "finalizing_app", none⟩
        ([p1, p2], .ok finalApp)

/-! ## Concrete sample data used by witnesses -/

/-- A registered template resembling templates/definitions/journal-app.yaml. -/
def sampleTemplate : TemplateDefinition :=
  { name := "journal-app", description := "A journaling app", category := "productivity",
    framework := "react", complexity := "simple",
    capabilities := [("file_upload", true), ("data_storage", true), ("workflow_management", true)],
    base_reference := "journal-base",
    «variables» := [("app_title", "\x7b\x7bjtbd_description\x7d\x7d")],
    customization_prompts := ⟨"Generate UI for \x7b\x7bjtbd_description\x7d\x7d",
                              "Implement \x7b\x7bjtbd_description\x7d\x7d"⟩,
    api_integrations := [{ type := "llm", providers := some ["openai", "anthropic"] }],
    deployment := ⟨"pages", "subdomain", "local_storage", "inline"⟩ }

def sampleUserReq : UserRequirements :=
  { name := "My Journal", jtbds := "track my journal entries",
    input_sources := ["upload"], outputs := ["summary"], api_keys_required := ["openai"],
    next_step := "none",
    visual_style := ⟨"dark", "blue", "Inter", "minimal", "subtle", none, none⟩,
    llm_models := [("primary", "claude-3.7-sonnet")] }

/-- Requirements with an empty `input_sources` list. -/
def emptyInputsReq : UserRequirements :=
  { name := "X", jtbds := "dashboard",
    input_sources := [], outputs := ["summary"], api_keys_required := ["openai"],
    next_step := "none",
    visual_style := ⟨"light", "red", "Arial", "bold", "none", none, none⟩ }

def sampleRequest : CodeGenerationRequest :=
  { name := "Test App", jtbds := "track my journal entries",
    input_sources := ["upload"], outputs := ["summary"], api_keys_required := [],
    visual_style := ⟨"dark", "blue", "Inter", "minimal", "subtle", none, none⟩,
    frontend_framework := "react" }

/-- An oracle environment in which every LLM and UI-generation call fails. -/
def failEnv : OrchestratorEnv :=
  ⟨fun _ _ => .error "LLM call failed: 500", fun _ _ => .error "Google UI gen failed: 500",
   fun _ => .null⟩

/-! ## C5 — model selection policy -/

/-- C5: `pickLLMForJTBD` is a pure function of the description (it is a Lean
function, hence deterministic), and its keyword groups are tested with the UI
group first: any description containing both "ui" and "report" (after
lower-casing) resolves via the UI rule — provider googleai, model
gemini-2.0-pro-exp, and no fallback — not via the analysis rule. -/
theorem pickLLMForJTBD_ui_precedence (s : String)
    (hui : strHasSub (strToLower s) "ui" = true)
    (hreport : strHasSub (strToLower s) "report" = true) :
    pickLLMForJTBD s =
      { provider := .googleai, model := "gemini-2.0-pro-exp",
        reason := "front-end code generation", fallback := none } := by
  simp [pickLLMForJTBD, hui]

/-- Witness for C5 at the description "build a ui with a report". -/
theorem pickLLMForJTBD_ui_precedence_witness :
    strHasSub (strToLower "build a ui with a report") "ui" = true ∧
    strHasSub (strToLower "build a ui with a report") "report" = true ∧
    pickLLMForJTBD "build a ui with a report" =
      { provider := .googleai, model := "gemini-2.0-pro-exp",
        reason := "front-end code generation", fallback := none } :=
  ⟨by decide, by decide, pickLLMForJTBD_ui_precedence _ (by decide) (by decide)⟩

/-! ## C10 — empty registry behavior of selectTemplateForJTBD -/

/-- C10: when the registry yields no templates (also `getAvailableTemplates`'s
result whenever the definitions directory cannot be read), the source reads
`matches[0].confidence` off `undefined` and throws a TypeError instead of
returning a fallback-to-generation decision. -/
theorem selectTemplateForJTBD_empty_throws (userRequirements : UserRequirements) :
    selectTemplateForJTBD [] userRequirements =
      .error "TypeError: Cannot read properties of undefined (reading \x27confidence\x27)" := rfl

/-! ## C8 — template load failure is a hard error -/

/-- C8: when the requested template definition cannot be found or parsed,
`customizeTemplate` returns the rethrown load error to its caller before any
customization output or progress update is produced; no catch-and-continue
policy swallows it. -/
theorem customizeTemplate_load_failure (env : CustomizeEnv) (templateName : String)
    (userRequirements : UserRequirements) (e : String)
    (h : env.registry templateName = .error e) :
    customizeTemplate env templateName userRequirements =
      ([], .error ("Failed to load template definition for " ++ templateName ++ ": " ++ e)) := by
  unfold customizeTemplate loadTemplateDefinition
  rw [h]

/-- Witness for C8: a registry whose read fails with ENOENT. -/
theorem customizeTemplate_load_failure_witness :
    customizeTemplate
      ⟨fun _ => .error "ENOENT: no such file or directory",
       fun _ _ => .ok ⟨[]⟩, fun _ _ => .ok "", "2026-10-11T00:00:00.000Z"⟩
      "journal-app"
      { visual_style := ⟨"dark", "blue", "Inter", "minimal", "none", none, none⟩ } =
      ([], .error "Failed to load template definition for journal-app: ENOENT: no such file or directory") := by
  exact customizeTemplate_load_failure _ _ _ _ rfl

/-! ## C7 — the response parser never raises -/

/-- C7: the response parsers are total functions of the raw text (they never
raise).  For the planning parser: a JSON-parseable response yields exactly one
file "project-structure.json", an unparseable one yields exactly one file
"planning-notes.txt" whose content is the raw text.  For the code parser: a
non-JSON or non-array response yields a single file whose content is the raw
input verbatim. -/
theorem responseParser_never_raises (s ph : String) :
    (∀ v, jsonParse s = some v →
      parsePlanningResponse s ph =
        [⟨.str "project-structure.json", .str (jsonStringify2 v), ph⟩]) ∧
    (jsonParse s = none →
      parsePlanningResponse s ph = [⟨.str "planning-notes.txt", .str s, ph⟩]) ∧
    ((∀ l, jsonParse s ≠ some (.arr l)) →
      parseCodeResponse s ph = [⟨.str ("phase-" ++ ph ++ ".tsx"), .str s, ph⟩]) := by
  refine ⟨fun v hv => ?_, fun hn => ?_, fun hna => ?_⟩
  · simp [parsePlanningResponse, hv]
  · simp [parsePlanningResponse, hn]
  · unfold parseCodeResponse
    cases hp : jsonParse s with
    | none => rfl
    | some v =>
      cases v with
      | arr l => exact absurd hp (hna l)
      | null => rfl
      | bool b => rfl
      | num q => rfl
      | str s2 => rfl
      | obj fs => rfl

/-- Witness for C7: "true" is JSON-parseable and not an array; "not json" is
unparseable. -/
theorem responseParser_never_raises_witness :
    parsePlanningResponse "not json" "planning" =
      [⟨.str "planning-notes.txt", .str "not json", "planning"⟩] ∧
    parsePlanningResponse "true" "planning" =
      [⟨.str "project-structure.json", .str "true", "planning"⟩] ∧
    parseCodeResponse "true" "core" =
      [⟨.str "phase-core.tsx", .str "true", "core"⟩] :=
  ⟨(responseParser_never_raises "not json" "planning").2.1 rfl,
   (responseParser_never_raises "true" "planning").1 (.bool true) rfl,
   (responseParser_never_raises "true" "core").2.2 (fun l h => by
      rw [show jsonParse "true" = some (JSVal.bool true) from rfl] at h
      injection h with h2
      exact JSVal.noConfusion h2)⟩

/-! ## C6 — response parser round trip (corrected) -/

/-- Truthiness-based round-trip invariant for one parsed entry. -/
def entryPreserved (ph : String) (v : JSVal) (f : GeneratedFile) : Prop :=
  getField v "path" = some f.path ∧ getField v "content" = some f.content ∧ f.phase = ph

/-- Counterexample to C6 as stated: `[{"path": "", "content": "b"}]` is a
well-formed JSON array of path/content objects, but `f.path || default`
replaces the empty-string path with the phase-indexed default, so the output
path differs from the input's path value. -/
theorem parseCodeResponse_roundtrip_cex :
    jsonParse "[\x7b\"path\": \"\", \"content\": \"b\"\x7d]" =
      some (.arr [.obj [("path", .str ""), ("content", .str "b")]]) ∧
    parseCodeResponse "[\x7b\"path\": \"\", \"content\": \"b\"\x7d]" "core" =
      [⟨.str "phase-core.txt", .str "b", "core"⟩] ∧
    JSVal.str "phase-core.txt" ≠ JSVal.str "" := by
  refine ⟨rfl, rfl, fun h => ?_⟩
  injection h with h2
  exact absurd h2 (by decide)

/-- C6 (amended): for every string parsing to a JSON array whose entries all
carry truthy `path` and `content` fields, `parseCodeResponse` returns a list
of the same length whose entries reproduce the input's `path` and `content`
values exactly, each tagged with the requested phase. -/
theorem parseCodeResponse_roundtrip (s ph : String) (entries : List JSVal)
    (hparse : jsonParse s = some (.arr entries))
    (hok : ∀ v ∈ entries, (∃ pv, getField v "path" = some pv ∧ jsTruthy pv = true) ∧
      (∃ cv, getField v "content" = some cv ∧ jsTruthy cv = true)) :
    List.Forall₂ (entryPreserved ph) entries (parseCodeResponse s ph) ∧
    (parseCodeResponse s ph).length = entries.length := by
  have hmap : parseCodeResponse s ph = entries.map fun f =>
      ⟨jsOrVal (getField f "path") (.str ("phase-" ++ ph ++ ".txt")),
       jsOrVal (getField f "content") f, ph⟩ := by
    unfold parseCodeResponse
    rw [hparse]
  rw [hmap, List.length_map]
  refine ⟨?_, rfl⟩
  clear hmap hparse
  induction entries with
  | nil => exact .nil
  | cons v vs ih =>
    obtain ⟨⟨pv, hpv, hpt⟩, ⟨cv, hcv, hct⟩⟩ := hok v (List.mem_cons_self v vs)
    refine .cons ⟨?_, ?_, rfl⟩ (ih fun w hw => hok w (List.mem_cons_of_mem v hw))
    · simp [jsOrVal, hpv, hpt]
    · simp [jsOrVal, hcv, hct]

/-! ## Orchestrator lemmas -/

theorem goPhases_nil (env : OrchestratorEnv) (request : CodeGenerationRequest)
    (files : List GeneratedFile) (c : Nat) :
    goPhases env request [] files c = ⟨files, c, [], []⟩ := rfl

theorem goPhases_cons_ok (env : OrchestratorEnv) (request : CodeGenerationRequest)
    (ph : GenPhase) (rest : List GenPhase) (files : List GeneratedFile) (c : Nat)
    (fs : List GeneratedFile) (h : generatePhase env request ph.name files = .ok fs) :
    goPhases env request (ph :: rest) files c =
      ⟨(goPhases env request rest (files ++ fs) (c + 1)).files,
       (goPhases env request rest (files ++ fs) (c + 1)).completed,
       ⟨ph.name, (c : ℚ) / (phases.length : ℚ) * 100, "generating", none⟩ ::
         (goPhases env request rest (files ++ fs) (c + 1)).log,
       (ph.name, true) :: (goPhases env request rest (files ++ fs) (c + 1)).outcomes⟩ := by
  conv_lhs => rw [goPhases]
  rw [h]

theorem goPhases_cons_error (env : OrchestratorEnv) (request : CodeGenerationRequest)
    (ph : GenPhase) (rest : List GenPhase) (files : List GeneratedFile) (c : Nat)
    (e : String) (h : generatePhase env request ph.name files = .error e) :
    goPhases env request (ph :: rest) files c =
      ⟨(goPhases env request rest files c).files,
       (goPhases env request rest files c).completed,
       ⟨ph.name, (c : ℚ) / (phases.length : ℚ) * 100, "generating", none⟩ ::
         (goPhases env request rest files c).log,
       (ph.name, false) :: (goPhases env request rest files c).outcomes⟩ := by
  conv_lhs => rw [goPhases]
  rw [h]

theorem goPhases_log_status (env : OrchestratorEnv) (request : CodeGenerationRequest) :
    ∀ (L : List GenPhase) (files : List GeneratedFile) (c : Nat),
      ∀ u ∈ (goPhases env request L files c).log, u.status = "generating" := by
  intro L
  induction L with
  | nil => intro files c u hu; simp [goPhases_nil] at hu
  | cons ph rest ih =>
    intro files c u hu
    cases hgen : generatePhase env request ph.name files with
    | ok fs =>
      rw [goPhases_cons_ok env request ph rest files c fs hgen] at hu
      rcases List.mem_cons.mp hu with h | h
      · subst h; rfl
      · exact ih _ _ u h
    | error e =>
      rw [goPhases_cons_error env request ph rest files c e hgen] at hu
      rcases List.mem_cons.mp hu with h | h
      · subst h; rfl
      · exact ih _ _ u h

theorem goPhases_outcomes_names (env : OrchestratorEnv) (request : CodeGenerationRequest) :
    ∀ (L : List GenPhase) (files : List GeneratedFile) (c : Nat),
      (goPhases env request L files c).outcomes.map Prod.fst = L.map GenPhase.name := by
  intro L
  induction L with
  | nil => intro files c; simp [goPhases_nil]
  | cons ph rest ih =>
    intro files c
    cases hgen : generatePhase env request ph.name files with
    | ok fs =>
      rw [goPhases_cons_ok env request ph rest files c fs hgen]
      simp [ih]
    | error e =>
      rw [goPhases_cons_error env request ph rest files c e hgen]
      simp [ih]

theorem parsePlanningResponse_tag (r p : String) :
    ∀ f ∈ parsePlanningResponse r p, f.phase = p := by
  intro f hf
  unfold parsePlanningResponse at hf
  rcases h : jsonParse r with _ | v <;> rw [h] at hf <;>
    simp only [List.mem_singleton] at hf <;> subst hf <;> rfl

theorem parseCodeResponse_tag (r p : String) :
    ∀ f ∈ parseCodeResponse r p, f.phase = p := by
  intro f hf
  unfold parseCodeResponse at hf
  rcases h : jsonParse r with _ | v
  · rw [h] at hf
    simp only [List.mem_singleton] at hf
    subst hf; rfl
  · rw [h] at hf
    cases v with
    | arr l =>
      simp only [List.mem_map] at hf
      obtain ⟨a, -, ha⟩ := hf
      subst ha; rfl
    | null => simp only [List.mem_singleton] at hf; subst hf; rfl
    | bool b => simp only [List.mem_singleton] at hf; subst hf; rfl
    | num q => simp only [List.mem_singleton] at hf; subst hf; rfl
    | str s2 => simp only [List.mem_singleton] at hf; subst hf; rfl
    | obj fs2 => simp only [List.mem_singleton] at hf; subst hf; rfl

/-- Every file a phase emits is tagged with that phase's name. -/
theorem generatePhase_phase_tag (env : OrchestratorEnv) (request : CodeGenerationRequest)
    (phase : String) (previousFiles : List GeneratedFile) (fs : List GeneratedFile)
    (h : generatePhase env request phase previousFiles = .ok fs) :
    ∀ f ∈ fs, f.phase = phase := by
  unfold generatePhase at h
  by_cases h1 : phase = "planning"
  · rw [if_pos h1] at h
    cases hl : env.llm (buildPhasePrompt request phase previousFiles)
        (pickLLMForJTBD request.jtbds) with
    | ok response =>
      rw [hl] at h
      simp only [Except.map] at h
      cases h
      exact parsePlanningResponse_tag response phase
    | error e => rw [hl] at h; simp [Except.map] at h
  · rw [if_neg h1] at h
    by_cases h2 : (strHasSub phase "ui" || phase = "styling") = true
    · rw [if_pos h2] at h
      cases hu : env.uiGen "gemini-2.0-pro-exp" (buildPhasePrompt request phase previousFiles) with
      | ok uiResult =>
        rw [hu] at h
        simp only [Except.map] at h
        cases h
        intro f hf
        simp only [List.mem_map] at hf
        obtain ⟨a, -, ha⟩ := hf
        subst ha; rfl
      | error e => rw [hu] at h; simp [Except.map] at h
    · rw [if_neg h2] at h
      cases hl : env.llm (buildPhasePrompt request phase previousFiles)
          (pickLLMForJTBD request.jtbds) with
      | ok response =>
        rw [hl] at h
        simp only [Except.map] at h
        cases h
        exact parseCodeResponse_tag response phase
      | error e => rw [hl] at h; simp [Except.map] at h

theorem goPhases_files_append (env : OrchestratorEnv) (request : CodeGenerationRequest) :
    ∀ (L : List GenPhase) (files : List GeneratedFile) (c : Nat),
      ∃ extra, (goPhases env request L files c).files = files ++ extra ∧
        ∀ f ∈ extra, f.phase ∈ L.map GenPhase.name := by
  intro L
  induction L with
  | nil =>
    intro files c
    exact ⟨[], by simp [goPhases_nil], by simp⟩
  | cons ph rest ih =>
    intro files c
    cases hgen : generatePhase env request ph.name files with
    | ok fs =>
      obtain ⟨extra, he, ht⟩ := ih (files ++ fs) (c + 1)
      refine ⟨fs ++ extra, ?_, ?_⟩
      · rw [goPhases_cons_ok env request ph rest files c fs hgen]
        simpa [List.append_assoc] using he
      · intro f hf
        rcases List.mem_append.mp hf with hmem | hmem
        · have htag := generatePhase_phase_tag env request ph.name files fs hgen f hmem
          rw [List.map_cons, htag]
          exact List.mem_cons_self _ _
        · exact List.mem_cons_of_mem _ (ht f hmem)
    | error e =>
      obtain ⟨extra, he, ht⟩ := ih files c
      refine ⟨extra, ?_, ?_⟩
      · rw [goPhases_cons_error env request ph rest files c e hgen]
        simpa using he
      · intro f hf
        exact List.mem_cons_of_mem _ (ht f hf)

theorem goPhases_failed_no_files (env : OrchestratorEnv) (request : CodeGenerationRequest) :
    ∀ (L : List GenPhase) (files : List GeneratedFile) (c : Nat) (p : String),
      (L.map GenPhase.name).Nodup →
      (p, false) ∈ (goPhases env request L files c).outcomes →
      ((goPhases env request L files c).files.filter fun f => decide (f.phase = p)) =
        files.filter fun f => decide (f.phase = p) := by
  intro L
  induction L with
  | nil => intro files c p _ hmem; simp [goPhases_nil] at hmem
  | cons ph rest ih =>
    intro files c p hnd hmem
    have hnd2 : ph.name ∉ rest.map GenPhase.name ∧ (rest.map GenPhase.name).Nodup := by
      rw [List.map_cons, List.nodup_cons] at hnd
      exact hnd
    cases hgen : generatePhase env request ph.name files with
    | ok fs =>
      rw [goPhases_cons_ok env request ph rest files c fs hgen] at hmem ⊢
      simp only [List.mem_cons] at hmem
      rcases hmem with heq | hmem
      · exact absurd (congrArg Prod.snd heq) (by simp)
      · have hpn : p ∈ rest.map GenPhase.name := by
          rw [← goPhases_outcomes_names env request rest (files ++ fs) (c + 1)]
          exact List.mem_map_of_mem Prod.fst hmem
        have hp_ne : ph.name ≠ p := fun h => hnd2.1 (h ▸ hpn)
        rw [ih (files ++ fs) (c + 1) p hnd2.2 hmem, List.filter_append]
        have hfs : (fs.filter fun f => decide (f.phase = p)) = [] := by
          rw [List.filter_eq_nil]
          intro a ha
          rw [generatePhase_phase_tag env request ph.name files fs hgen a ha]
          simpa using hp_ne
        rw [hfs, List.append_nil]
    | error e =>
      rw [goPhases_cons_error env request ph rest files c e hgen] at hmem ⊢
      simp only [List.mem_cons] at hmem
      rcases hmem with heq | hmem
      · have hp : p = ph.name := congrArg Prod.fst heq
        obtain ⟨extra, he, ht⟩ := goPhases_files_append env request rest files c
        rw [he, List.filter_append]
        have hex : (extra.filter fun f => decide (f.phase = p)) = [] := by
          rw [List.filter_eq_nil]
          intro a ha
          have hmemrest := ht a ha
          simp only [decide_eq_true_eq]
          intro hap
          exact hnd2.1 (hp ▸ hap ▸ hmemrest)
        rw [hex, List.append_nil]
      · exact ih files c p hnd2.2 hmem

/-- The progress values the phase loop posts, derived from the per-phase
outcomes: each pre-phase update carries (successes so far) / 6 × 100. -/
def progressSeq (c : Nat) : List (String × Bool) → List ℚ
  | [] => []
  | o :: rest =>
    ((c : ℚ) / (phases.length : ℚ) * 100) :: progressSeq (if o.2 then c + 1 else c) rest

theorem goPhases_log_map (env : OrchestratorEnv) (request : CodeGenerationRequest) :
    ∀ (L : List GenPhase) (files : List GeneratedFile) (c : Nat),
      (goPhases env request L files c).log.map ProgressUpdate.progress =
        progressSeq c (goPhases env request L files c).outcomes := by
  intro L
  induction L with
  | nil => intro files c; simp [goPhases_nil, progressSeq]
  | cons ph rest ih =>
    intro files c
    cases hgen : generatePhase env request ph.name files with
    | ok fs =>
      rw [goPhases_cons_ok env request ph rest files c fs hgen]
      simp [progressSeq, ih]
    | error e =>
      rw [goPhases_cons_error env request ph rest files c e hgen]
      simp [progressSeq, ih]

theorem progressSeq_bounds :
    ∀ (outs : List (String × Bool)) (c : Nat), c + outs.length ≤ 6 →
      ∀ x ∈ progressSeq c outs, 0 ≤ x ∧ x ≤ 100 := by
  intro outs
  induction outs with
  | nil => intro c h x hx; simp [progressSeq] at hx
  | cons o rest ih =>
    intro c h x hx
    simp only [progressSeq, List.mem_cons] at hx
    rcases hx with rfl | hx
    · have hlen : (phases.length : ℚ) = 6 := by norm_num [phases]
      rw [hlen]
      constructor
      · positivity
      · have hc : (c : ℚ) ≤ 6 := by exact_mod_cast Nat.le_of_lt_succ (by simp at h; omega)
        rw [div_mul_eq_mul_div, div_le_iff (by norm_num)]
        nlinarith
    · refine ih (if o.2 then c + 1 else c) ?_ x hx
      cases ho : o.2 <;> simp at h ⊢ <;> omega

theorem progressSeq_chain :
    ∀ (outs : List (String × Bool)) (c : Nat), List.Chain' (· ≤ ·) (progressSeq c outs) := by
  intro outs
  induction outs with
  | nil => intro c; simp [progressSeq]
  | cons o rest ih =>
    intro c
    simp only [progressSeq]
    rw [List.chain'_cons']
    refine ⟨?_, ih _⟩
    intro y hy
    cases rest with
    | nil => simp [progressSeq] at hy
    | cons o2 r2 =>
      simp only [progressSeq, List.head?, Option.mem_def, Option.some.injEq] at hy
      subst hy
      have hmono : (c : ℚ) ≤ ((if o.2 then c + 1 else c : Nat) : ℚ) := by
        split_ifs <;> push_cast <;> linarith
      have hlen : (phases.length : ℚ) = 6 := by norm_num [phases]
      rw [hlen]
      gcongr

theorem progressSeq_get :
    ∀ (outs : List (String × Bool)) (c i : Nat), i < outs.length →
      (progressSeq c outs).get? i =
        some (((c + (outs.take i).countP (fun o => o.2) : ℕ) : ℚ) /
          (phases.length : ℚ) * 100) := by
  intro outs
  induction outs with
  | nil => intro c i h; simp at h
  | cons o rest ih =>
    intro c i h
    cases i with
    | zero => simp [progressSeq]
    | succ i =>
      simp only [progressSeq, List.get?]
      rw [ih (if o.2 then c + 1 else c) i (by simp only [List.length_cons] at h; omega)]
      have harith : (if o.2 then c + 1 else c) + (rest.take i).countP (fun o => o.2) =
          c + (((o :: rest).take (i + 1)).countP fun o => o.2) := by
        simp only [List.take_succ_cons, List.countP_cons]
        split_ifs with ho <;> omega
      rw [harith]

theorem goPhases_outcomes_length (env : OrchestratorEnv) (request : CodeGenerationRequest)
    (L : List GenPhase) (files : List GeneratedFile) (c : Nat) :
    (goPhases env request L files c).outcomes.length = L.length := by
  have := congrArg List.length (goPhases_outcomes_names env request L files c)
  simpa using this

theorem goPhases_log_length (env : OrchestratorEnv) (request : CodeGenerationRequest) :
    ∀ (L : List GenPhase) (files : List GeneratedFile) (c : Nat),
      (goPhases env request L files c).log.length = L.length := by
  intro L
  induction L with
  | nil => intro files c; simp [goPhases_nil]
  | cons ph rest ih =>
    intro files c
    cases hgen : generatePhase env request ph.name files with
    | ok fs =>
      rw [goPhases_cons_ok env request ph rest files c fs hgen]
      simp [ih]
    | error e =>
      rw [goPhases_cons_error env request ph rest files c e hgen]
      simp [ih]

/-! ## C1 — generateApp always terminates and reports completion exactly once -/

/-- C1: `generateApp` is a total function (it terminates and raises nothing
for every request, agent id, and collaborator behavior), and the posted
progress log contains exactly one update with status "completed" and progress
100 — the unconditional final post — regardless of how many phases failed. -/
theorem generateApp_reports_completion_once (env : OrchestratorEnv)
    (request : CodeGenerationRequest) (agentId : String) :
    ((generateApp env request agentId).2.countP
      fun u => decide (u.status = "completed") && decide (u.progress = 100)) = 1 := by
  have hlog : (generateApp env request agentId).2 =
      (goPhases env request phases [] 0).log ++
        [⟨"complete", 100, "completed",
          some (createPreviewAndDeploy (goPhases env request phases [] 0).files
            (buildGeneratedApp env (goPhases env request phases [] 0).files request agentId)
            agentId)⟩] := rfl
  rw [hlog, List.countP_append]
  have h0 : ((goPhases env request phases [] 0).log.countP
      fun u => decide (u.status = "completed") && decide (u.progress = 100)) = 0 := by
    rw [List.countP_eq_zero]
    intro u hu
    have hs := goPhases_log_status env request phases [] 0 u hu
    simp [hs]
  rw [h0]
  simp

/-! ## C2 — a failed phase yields zero files for that phase, no early abort -/

/-- C2: if a phase's LLM (or UI-generation) call throws during the run — the
phase's outcome is recorded as failed — then the final accumulated file list
contains zero files tagged with that phase, and the orchestrator still
attempted all six phases in order (the outcome record always lists all six
phase names). -/
theorem generateApp_failed_phase_no_files (env : OrchestratorEnv)
    (request : CodeGenerationRequest) (agentId : String) (p : String)
    (h : (p, false) ∈ runOutcomes env request) :
    ((generateApp env request agentId).1.files.filter fun f => decide (f.phase = p)) = [] ∧
    (runOutcomes env request).map Prod.fst =
      ["planning", "foundation", "core", "styling", "integration", "optimization"] := by
  constructor
  · have hfiles : (generateApp env request agentId).1.files =
        (goPhases env request phases [] 0).files := rfl
    rw [hfiles]
    have := goPhases_failed_no_files env request phases [] 0 p (by decide) h
    simpa using this
  · have hnames : runOutcomes env request = (goPhases env request phases [] 0).outcomes := rfl
    rw [hnames, goPhases_outcomes_names env request phases [] 0]
    rfl

/-- Witness for C2: with an environment in which every LLM call fails, the
planning phase's outcome is failed, no file is tagged "planning", and all six
phases were still attempted. -/
theorem generateApp_failed_phase_no_files_witness :
    ("planning", false) ∈ runOutcomes failEnv sampleRequest ∧
    ((generateApp failEnv sampleRequest "agent-1").1.files.filter
      fun f => decide (f.phase = "planning")) = [] ∧
    (runOutcomes failEnv sampleRequest).map Prod.fst =
      ["planning", "foundation", "core", "styling", "integration", "optimization"] := by
  have hmem : ("planning", false) ∈ runOutcomes failEnv sampleRequest := by decide
  exact ⟨hmem, generateApp_failed_phase_no_files failEnv sampleRequest "agent-1" "planning" hmem⟩

/-! ## C9 — progress stays within [0, 100], never decreases, and equals
completed/6 × 100 before each phase -/

/-- C9: every posted progress value lies in [0, 100]; the posted sequence is
non-decreasing; and the update posted before the i-th phase carries exactly
(number of previously completed phases) / 6 × 100 (the counter advances only
on phase success, as in the source). -/
theorem generateApp_progress_invariants (env : OrchestratorEnv)
    (request : CodeGenerationRequest) (agentId : String) :
    (∀ u ∈ (generateApp env request agentId).2, 0 ≤ u.progress ∧ u.progress ≤ 100) ∧
    List.Chain' (fun a b => a.progress ≤ b.progress) (generateApp env request agentId).2 ∧
    (∀ i, i < 6 →
      ((goPhases env request phases [] 0).log.get? i).map ProgressUpdate.progress =
        some (((((runOutcomes env request).take i).countP fun o => o.2 : ℕ) : ℚ) / 6 * 100)) := by
  have hlen : (phases.length : ℚ) = 6 := by norm_num [phases]
  have holen : (goPhases env request phases [] 0).outcomes.length = 6 :=
    goPhases_outcomes_length env request phases [] 0
  have hlog : (generateApp env request agentId).2 =
      (goPhases env request phases [] 0).log ++
        [⟨"complete", 100, "completed",
          some (createPreviewAndDeploy (goPhases env request phases [] 0).files
            (buildGeneratedApp env (goPhases env request phases [] 0).files request agentId)
            agentId)⟩] := rfl
  have hbound : ∀ u ∈ (goPhases env request phases [] 0).log, 0 ≤ u.progress ∧ u.progress ≤ 100 := by
    intro u hu
    have hmem : u.progress ∈ progressSeq 0 (goPhases env request phases [] 0).outcomes := by
      rw [← goPhases_log_map env request phases [] 0]
      exact List.mem_map_of_mem ProgressUpdate.progress hu
    exact progressSeq_bounds _ 0 (by omega) _ hmem
  refine ⟨?_, ?_, ?_⟩
  · intro u hu
    rw [hlog] at hu
    rcases List.mem_append.mp hu with h | h
    · exact hbound u h
    · rcases List.mem_singleton.mp h with rfl
      norm_num
  · rw [hlog, List.chain'_append]
    refine ⟨?_, by simp, ?_⟩
    · rw [← List.chain'_map ProgressUpdate.progress, goPhases_log_map env request phases [] 0]
      exact progressSeq_chain _ 0
    · intro x hx y hy
      simp only [List.head?, Option.mem_def, Option.some.injEq] at hy
      subst hy
      have hxmem : x ∈ (goPhases env request phases [] 0).log := by
        obtain ⟨hne, hxeq⟩ := List.mem_getLast?_eq_getLast hx
        rw [hxeq]
        exact List.getLast_mem hne
      exact (hbound x hxmem).2
  · intro i hi
    have hget := progressSeq_get (goPhases env request phases [] 0).outcomes 0 i (by omega)
    have hmapget : ((goPhases env request phases [] 0).log.map ProgressUpdate.progress).get? i =
        ((goPhases env request phases [] 0).log.get? i).map ProgressUpdate.progress :=
      List.get?_map ProgressUpdate.progress _ i
    rw [← hmapget, goPhases_log_map env request phases [] 0, hget, hlen]
    have hro : runOutcomes env request = (goPhases env request phases [] 0).outcomes := rfl
    rw [hro]
    norm_num

/-- Witness for C9: for the all-failures environment the final "complete"
update's progress is within bounds, and the index-0 pre-phase update equals
(0 completed)/6 × 100. -/
theorem generateApp_progress_invariants_witness :
    (0 ≤ (⟨"complete", 100, "completed",
        some (createPreviewAndDeploy (goPhases failEnv sampleRequest phases [] 0).files
          (buildGeneratedApp failEnv (goPhases failEnv sampleRequest phases [] 0).files
            sampleRequest "agent-1") "agent-1")⟩ : ProgressUpdate).progress ∧
      (⟨"complete", 100, "completed",
        some (createPreviewAndDeploy (goPhases failEnv sampleRequest phases [] 0).files
          (buildGeneratedApp failEnv (goPhases failEnv sampleRequest phases [] 0).files
            sampleRequest "agent-1") "agent-1")⟩ : ProgressUpdate).progress ≤ 100) ∧
    ((goPhases failEnv sampleRequest phases [] 0).log.get? 0).map ProgressUpdate.progress =
      some (((((runOutcomes failEnv sampleRequest).take 0).countP fun o => o.2 : ℕ) : ℚ) / 6 * 100) := by
  constructor
  · refine (generateApp_progress_invariants failEnv sampleRequest "agent-1").1 _ ?_
    have hsplit : (generateApp failEnv sampleRequest "agent-1").2 =
        (goPhases failEnv sampleRequest phases [] 0).log ++
          [⟨"complete", 100, "completed",
            some (createPreviewAndDeploy (goPhases failEnv sampleRequest phases [] 0).files
              (buildGeneratedApp failEnv (goPhases failEnv sampleRequest phases [] 0).files
                sampleRequest "agent-1") "agent-1")⟩] := rfl
    rw [hsplit]
    exact List.mem_append_right _ (List.mem_singleton.mpr rfl)
  · exact (generateApp_progress_invariants failEnv sampleRequest "agent-1").2.2 0 (by norm_num)

/-! ## Selector lemmas -/

/-- Descending order on match confidences, stated for rational confidences. -/
def confGE (a b : TemplateMatch) : Prop :=
  ∀ qa qb, a.confidence = JSNum.num qa → b.confidence = JSNum.num qb → qb ≤ qa

theorem num_inj_eq {n : JSNum} {q1 q2 : ℚ} (h1 : n = .num q1) (h2 : n = .num q2) : q1 = q2 := by
  rw [h1] at h2
  exact JSNum.num.inj h2

theorem jltZero_matchCompare_iff (x m : TemplateMatch) (qx qm : ℚ)
    (hx : x.confidence = JSNum.num qx) (hm : m.confidence = JSNum.num qm) :
    jltZero (matchCompare x m) = true ↔ qm < qx := by
  simp only [matchCompare, jsub, hx, hm, jneg, jadd, jltZero, decide_eq_true_eq]
  constructor <;> intro <;> linarith

theorem insertMatch_perm (m : TemplateMatch) (l : List TemplateMatch) :
    List.Perm (insertMatch m l) (m :: l) := by
  induction l with
  | nil => exact List.Perm.refl _
  | cons x xs ih =>
    by_cases hc : jltZero (matchCompare x m) = true
    · simp only [insertMatch, if_pos hc]
      exact ((ih.cons x).trans (List.Perm.swap m x xs))
    · simp only [insertMatch, if_neg hc]
      exact List.Perm.refl _

theorem sortMatches_perm (l : List TemplateMatch) : List.Perm (sortMatches l) l := by
  induction l with
  | nil => exact List.Perm.refl _
  | cons m ms ih =>
    simp only [sortMatches]
    exact (insertMatch_perm m (sortMatches ms)).trans (ih.cons m)

theorem insertMatch_filter (m : TemplateMatch) (l : List TemplateMatch) (q : ℚ) :
    (insertMatch m l).filter (fun x => decide (x.confidence = JSNum.num q)) =
      (if m.confidence = JSNum.num q then [m] else []) ++
        l.filter (fun x => decide (x.confidence = JSNum.num q)) := by
  induction l with
  | nil =>
    simp only [insertMatch, List.filter_nil, List.append_nil]
    by_cases hm : m.confidence = JSNum.num q <;> simp [hm, List.filter_cons]
  | cons x xs ih =>
    by_cases hc : jltZero (matchCompare x m) = true
    · simp only [insertMatch, if_pos hc]
      rw [List.filter_cons, ih, List.filter_cons]
      by_cases hx : x.confidence = JSNum.num q
      · by_cases hm : m.confidence = JSNum.num q
        · exfalso
          have := (jltZero_matchCompare_iff x m q q hx hm).mp hc
          exact lt_irrefl q this
        · simp [hx, hm]
      · simp [hx]
    · simp only [insertMatch, if_neg hc]
      rw [List.filter_cons]
      by_cases hm : m.confidence = JSNum.num q <;> simp [hm]

theorem sortMatches_filter (l : List TemplateMatch) (q : ℚ) :
    (sortMatches l).filter (fun x => decide (x.confidence = JSNum.num q)) =
      l.filter (fun x => decide (x.confidence = JSNum.num q)) := by
  induction l with
  | nil => rfl
  | cons m ms ih =>
    simp only [sortMatches]
    rw [insertMatch_filter, ih, List.filter_cons]
    by_cases hm : m.confidence = JSNum.num q <;> simp [hm]

theorem insertMatch_pairwise (m : TemplateMatch) (l : List TemplateMatch)
    (hm : ∃ qm, m.confidence = JSNum.num qm)
    (hl : ∀ x ∈ l, ∃ qx, x.confidence = JSNum.num qx)
    (hp : l.Pairwise confGE) : (insertMatch m l).Pairwise confGE := by
  induction l with
  | nil => simp [insertMatch, List.pairwise_singleton]
  | cons x xs ih =>
    obtain ⟨qm, hqm⟩ := hm
    obtain ⟨qx, hqx⟩ := hl x (List.mem_cons_self _ _)
    rw [List.pairwise_cons] at hp
    obtain ⟨hx_all, hxs⟩ := hp
    by_cases hc : jltZero (matchCompare x m) = true
    · simp only [insertMatch, if_pos hc]
      rw [List.pairwise_cons]
      refine ⟨?_, ih (fun z hz => hl z (List.mem_cons_of_mem _ hz)) hxs⟩
      intro y hy
      have hmem : y ∈ m :: xs := (insertMatch_perm m xs).mem_iff.mp hy
      rcases List.mem_cons.mp hmem with rfl | hyxs
      · intro qa qb ha hb
        have h1 : qa = qx := num_inj_eq ha hqx
        have h2 : qb = qm := num_inj_eq hb hqm
        have h3 := (jltZero_matchCompare_iff x y qx qm hqx hqm).mp hc
        subst h1
        subst h2
        linarith
      · exact hx_all y hyxs
    · simp only [insertMatch, if_neg hc]
      rw [List.pairwise_cons]
      refine ⟨?_, List.pairwise_cons.mpr ⟨hx_all, hxs⟩⟩
      intro y hy
      have hxm : qx ≤ qm := by
        have := (jltZero_matchCompare_iff x m qx qm hqx hqm).not.mp hc
        linarith [not_lt.mp this]
      rcases List.mem_cons.mp hy with rfl | hyxs
      · intro qa qb ha hb
        have h1 : qa = qm := num_inj_eq ha hqm
        have h2 : qb = qx := num_inj_eq hb hqx
        subst h1
        subst h2
        exact hxm
      · obtain ⟨qy, hqy⟩ := hl y (List.mem_cons_of_mem _ hyxs)
        have hyx : qy ≤ qx := hx_all y hyxs qx qy hqx hqy
        intro qa qb ha hb
        have h1 : qa = qm := num_inj_eq ha hqm
        have h2 : qb = qy := num_inj_eq hb hqy
        subst h1
        subst h2
        linarith

theorem sortMatches_pairwise (l : List TemplateMatch)
    (hl : ∀ x ∈ l, ∃ q, x.confidence = JSNum.num q) :
    (sortMatches l).Pairwise confGE := by
  induction l with
  | nil => simp [sortMatches]
  | cons m ms ih =>
    simp only [sortMatches]
    refine insertMatch_pairwise m (sortMatches ms) (hl m (List.mem_cons_self _ _)) ?_ ?_
    · intro z hz
      exact hl z (List.mem_cons_of_mem _ ((sortMatches_perm ms).mem_iff.mp hz))
    · exact ih fun z hz => hl z (List.mem_cons_of_mem _ hz)

/-- Every confidence the matcher computes on non-degenerate requirements is a
plain rational in [0, 1]. -/
theorem calculateTemplateMatch_num (t : TemplateDefinition) (r : UserRequirements)
    (hin : r.input_sources ≠ []) (hout : r.outputs ≠ []) (happ : r.api_keys_required ≠ []) :
    ∃ q, calculateTemplateMatch t r = JSNum.num q ∧ 0 ≤ q ∧ q ≤ 1 := by
  have hin0 : (r.input_sources.length : ℚ) ≠ 0 := by
    have h1 : r.input_sources.length ≠ 0 := by simpa [List.length_eq_zero] using hin
    exact_mod_cast h1
  have hout0 : (r.outputs.length : ℚ) ≠ 0 := by
    have h1 : r.outputs.length ≠ 0 := by simpa [List.length_eq_zero] using hout
    exact_mod_cast h1
  have happ0 : (r.api_keys_required.length : ℚ) ≠ 0 := by
    have h1 : r.api_keys_required.length ≠ 0 := by simpa [List.length_eq_zero] using happ
    exact_mod_cast h1
  have hIn : inputScore t r = JSNum.num
      ((((r.input_sources.filter fun i => templateSupportsInput t i).length : ℚ) /
        (r.input_sources.length : ℚ)) * 20) := by
    unfold inputScore
    simp [jdiv, jmul, hin0]
  have hOut : outputScore t r = JSNum.num
      ((((r.outputs.filter fun o => templateSupportsOutput t o).length : ℚ) /
        (r.outputs.length : ℚ)) * 20) := by
    unfold outputScore
    simp [jdiv, jmul, hout0]
  have hApi : apiScore t r = JSNum.num
      ((((r.api_keys_required.filter fun a => templateSupportsAPI t a).length : ℚ) /
        (r.api_keys_required.length : ℚ)) * 15) := by
    unfold apiScore
    simp [jdiv, jmul, happ0]
  have ha : (0 : ℚ) ≤ (((r.input_sources.filter fun i => templateSupportsInput t i).length : ℚ) /
      (r.input_sources.length : ℚ)) * 20 := by positivity
  have hb : (0 : ℚ) ≤ (((r.outputs.filter fun o => templateSupportsOutput t o).length : ℚ) /
      (r.outputs.length : ℚ)) * 20 := by positivity
  have hc2 : (0 : ℚ) ≤ (((r.api_keys_required.filter fun a => templateSupportsAPI t a).length : ℚ) /
      (r.api_keys_required.length : ℚ)) * 15 := by positivity
  have hkw : 0 ≤ kwScore t r := by
    unfold kwScore
    split_ifs <;> norm_num
  have hfav : 0 ≤ favScore t r := by
    cases hfa : r.visual_style.favorite_app with
    | none => simp [favScore, hfa]
    | some fav =>
      simp only [favScore, hfa]
      split_ifs <;> norm_num
  have hcx : 0 ≤ complexityScore t r := by
    unfold complexityScore
    split_ifs <;> norm_num
  refine ⟨min ((kwScore t r +
      (((r.input_sources.filter fun i => templateSupportsInput t i).length : ℚ) /
        (r.input_sources.length : ℚ)) * 20 +
      (((r.outputs.filter fun o => templateSupportsOutput t o).length : ℚ) /
        (r.outputs.length : ℚ)) * 20 +
      (((r.api_keys_required.filter fun a => templateSupportsAPI t a).length : ℚ) /
        (r.api_keys_required.length : ℚ)) * 15 +
      favScore t r + complexityScore t r) / 100) 1, ?_, ?_, ?_⟩
  · unfold calculateTemplateMatch
    rw [hIn, hOut, hApi]
    simp only [jadd]
    rw [show (30 + 20 + 20 + 15 + 10 + 5 : ℚ) = 100 from by norm_num]
    norm_num [jdiv, jmin]
  · refine le_min (div_nonneg (by linarith) (by norm_num)) zero_le_one
  · exact min_le_right _ _

/-! ## C3 — matcher score bounds, ranking, and sort stability (corrected) -/

/-- Counterexample to C3 as stated: on requirements with an empty
`input_sources` list the coverage term is `0/0 = NaN`, which propagates, so
the confidence is `NaN` — not a value in [0, 1]. -/
theorem templateMatcher_score_cex :
    calculateTemplateMatch sampleTemplate emptyInputsReq = JSNum.nan ∧
    ¬ ∃ q : ℚ, calculateTemplateMatch sampleTemplate emptyInputsReq = JSNum.num q ∧
      0 ≤ q ∧ q ≤ 1 := by
  have h : calculateTemplateMatch sampleTemplate emptyInputsReq = JSNum.nan := by decide
  refine ⟨h, ?_⟩
  rintro ⟨q, hq, -, -⟩
  rw [h] at hq
  exact JSNum.noConfusion hq

/-- C3 (amended): for requirements whose input, output, and API lists are all
non-empty, every confidence is a rational in [0, 1]; the sorted match list is
pairwise descending in confidence (so a template scoring ≥ 0.7 is ranked
ahead of every lower-scoring one, including every position pair i ≤ j); and
the sort is stable: the sublist of matches at any given confidence equals the
original registry-order sublist. -/
theorem templateMatcher_score_and_sort :
    (∀ (t : TemplateDefinition) (r : UserRequirements),
      r.input_sources ≠ [] → r.outputs ≠ [] → r.api_keys_required ≠ [] →
      ∃ q, calculateTemplateMatch t r = JSNum.num q ∧ 0 ≤ q ∧ q ≤ 1) ∧
    (∀ l : List TemplateMatch, (∀ x ∈ l, ∃ q, x.confidence = JSNum.num q) →
      (sortMatches l).Pairwise confGE) ∧
    (∀ (l : List TemplateMatch), (∀ x ∈ l, ∃ q, x.confidence = JSNum.num q) →
      ∀ (i j : ℕ) (hi : i < (sortMatches l).length) (hj : j < (sortMatches l).length),
        i ≤ j → confGE ((sortMatches l).get ⟨i, hi⟩) ((sortMatches l).get ⟨j, hj⟩)) ∧
    (∀ (l : List TemplateMatch) (q : ℚ),
      (sortMatches l).filter (fun x => decide (x.confidence = JSNum.num q)) =
        l.filter (fun x => decide (x.confidence = JSNum.num q))) := by
  refine ⟨calculateTemplateMatch_num, sortMatches_pairwise, ?_, sortMatches_filter⟩
  intro l hl i j hi hj hij
  rcases lt_or_eq_of_le hij with hlt | heq
  · exact List.pairwise_iff_get.mp (sortMatches_pairwise l hl) ⟨i, hi⟩ ⟨j, hj⟩ hlt
  · subst heq
    intro qa qb ha hb
    exact le_of_eq (num_inj_eq hb ha)

/-- Witness for C3 (amended) on the sample template and requirements. -/
theorem templateMatcher_score_and_sort_witness :
    (∃ q, calculateTemplateMatch sampleTemplate sampleUserReq = JSNum.num q ∧ 0 ≤ q ∧ q ≤ 1) ∧
    (sortMatches (templateMatches [sampleTemplate] sampleUserReq)).Pairwise confGE := by
  refine ⟨templateMatcher_score_and_sort.1 sampleTemplate sampleUserReq
    (by decide) (by decide) (by decide), ?_⟩
  refine templateMatcher_score_and_sort.2.1 _ ?_
  intro x hx
  simp only [templateMatches, List.map_cons, List.map_nil, List.mem_singleton] at hx
  subst hx
  obtain ⟨q, hq, -, -⟩ := templateMatcher_score_and_sort.1 sampleTemplate sampleUserReq
    (by decide) (by decide) (by decide)
  exact ⟨q, hq⟩

/-! ## C4 — the selection decision rule -/

/-- C4: on a non-empty registry (and non-degenerate requirements, which keep
every confidence a rational), `selectTemplateForJTBD` picks the
highest-scoring template: with score ≥ 0.7 it returns that template's name as
`selectedTemplate` plus at most three next-best alternatives; otherwise it
returns `fallbackGeneration := true` with the top three scoring
alternatives. -/
theorem selectTemplateForJTBD_decision (templates : List TemplateDefinition)
    (r : UserRequirements) (hne : templates ≠ [])
    (hin : r.input_sources ≠ []) (hout : r.outputs ≠ []) (happ : r.api_keys_required ≠ []) :
    ∃ best rest q,
      sortMatches (templateMatches templates r) = best :: rest ∧
      best.confidence = JSNum.num q ∧
      (∀ m ∈ templateMatches templates r, ∃ qm, m.confidence = JSNum.num qm ∧ qm ≤ q) ∧
      (7 / 10 ≤ q →
        selectTemplateForJTBD templates r = .ok
          { selectedTemplate := some best.templateName, fallbackGeneration := none,
            reasoning := best.reasoning, alternatives := rest.take 3 }) ∧
      (q < 7 / 10 →
        selectTemplateForJTBD templates r = .ok
          { selectedTemplate := none, fallbackGeneration := some true,
            reasoning := "No template matches well enough (best confidence: " ++
              toFixed1 (jmul (JSNum.num q) (JSNum.num 100)) ++
              "%). Will generate custom app using AI.",
            alternatives := (best :: rest).take 3 }) := by
  have hallnum : ∀ x ∈ templateMatches templates r,
      ∃ qx, x.confidence = JSNum.num qx ∧ 0 ≤ qx ∧ qx ≤ 1 := by
    intro x hx
    simp only [templateMatches, List.mem_map] at hx
    obtain ⟨t, -, rfl⟩ := hx
    exact calculateTemplateMatch_num t r hin hout happ
  have hml_ne : templateMatches templates r ≠ [] := by
    unfold templateMatches
    simpa [List.map_eq_nil] using hne
  cases hs : sortMatches (templateMatches templates r) with
  | nil =>
    exfalso
    have hlen := (sortMatches_perm (templateMatches templates r)).length_eq
    rw [hs] at hlen
    exact hml_ne (List.length_eq_zero.mp hlen.symm)
  | cons best rest =>
    have hbest_mem : best ∈ templateMatches templates r := by
      refine (sortMatches_perm (templateMatches templates r)).mem_iff.mp ?_
      rw [hs]
      exact List.mem_cons_self _ _
    obtain ⟨q, hq, -, -⟩ := hallnum best hbest_mem
    have hpw := sortMatches_pairwise (templateMatches templates r)
      (fun x hx => (hallnum x hx).imp fun _ h => h.1)
    rw [hs, List.pairwise_cons] at hpw
    have hmax : ∀ m ∈ templateMatches templates r, ∃ qm, m.confidence = JSNum.num qm ∧ qm ≤ q := by
      intro m hm
      obtain ⟨qm, hqm, -, -⟩ := hallnum m hm
      refine ⟨qm, hqm, ?_⟩
      have hmem_s : m ∈ sortMatches (templateMatches templates r) :=
        (sortMatches_perm (templateMatches templates r)).mem_iff.mpr hm
      rw [hs] at hmem_s
      rcases List.mem_cons.mp hmem_s with rfl | hmrest
      · exact le_of_eq (num_inj_eq hqm hq)
      · exact hpw.1 m hmrest q qm hq hqm
    refine ⟨best, rest, q, rfl, hq, hmax, ?_, ?_⟩
    · intro hge
      simp only [selectTemplateForJTBD, hs, hq, jge]
      rw [if_pos (decide_eq_true hge)]
    · intro hlt
      simp only [selectTemplateForJTBD, hs, hq, jge]
      rw [if_neg (by simp [not_le.mpr hlt])]

/-- Witness for C4 on the one-template registry containing the journal-app
sample and the journaling requirements. -/
theorem selectTemplateForJTBD_decision_witness :
    ∃ best rest q,
      sortMatches (templateMatches [sampleTemplate] sampleUserReq) = best :: rest ∧
      best.confidence = JSNum.num q ∧
      (∀ m ∈ templateMatches [sampleTemplate] sampleUserReq,
        ∃ qm, m.confidence = JSNum.num qm ∧ qm ≤ q) ∧
      (7 / 10 ≤ q →
        selectTemplateForJTBD [sampleTemplate] sampleUserReq = .ok
          { selectedTemplate := some best.templateName, fallbackGeneration := none,
            reasoning := best.reasoning, alternatives := rest.take 3 }) ∧
      (q < 7 / 10 →
        selectTemplateForJTBD [sampleTemplate] sampleUserReq = .ok
          { selectedTemplate := none, fallbackGeneration := some true,
            reasoning := "No template matches well enough (best confidence: " ++
              toFixed1 (jmul (JSNum.num q) (JSNum.num 100)) ++
              "%). Will generate custom app using AI.",
            alternatives := (best :: rest).take 3 }) :=
  selectTemplateForJTBD_decision [sampleTemplate] sampleUserReq
    (List.cons_ne_nil _ _) (by decide) (by decide) (by decide)

/-- Witness for C6 (amended) at `[{"path": "a.ts", "content": "x"}]`. -/
theorem parseCodeResponse_roundtrip_witness :
    List.Forall₂ (entryPreserved "core")
      [JSVal.obj [("path", JSVal.str "a.ts"), ("content", JSVal.str "x")]]
      (parseCodeResponse "[\x7b\"path\": \"a.ts\", \"content\": \"x\"\x7d]" "core") ∧
    (parseCodeResponse "[\x7b\"path\": \"a.ts\", \"content\": \"x\"\x7d]" "core").length =
      [JSVal.obj [("path", JSVal.str "a.ts"), ("content", JSVal.str "x")]].length := by
  refine parseCodeResponse_roundtrip _ "core" _ rfl ?_
  intro v hv
  rw [List.mem_singleton] at hv
  subst hv
  exact ⟨⟨.str "a.ts", rfl, rfl⟩, ⟨.str "x", rfl, rfl⟩⟩

end Codr
